import Mathlib

/-!
Verification of the minimotion core animation engine (src/src/core/anim.ts,
src/src/core/entities.ts, src/src/core/utils.ts) against its specification.

Times and durations are JavaScript numbers in the source; they are modelled
as rationals (ℚ).  JavaScript `Math.trunc`, `Math.round`, `Math.ceil` and the
`%` remainder are modelled by the `js*` helpers below.
-/

namespace Minimotion

/-- Floor of a rational computed with flooring integer division (kept
executable so that concrete runs reduce by `decide`). -/
def ratFloor (q : ℚ) : ℤ :=
  q.num.fdiv q.den

/-- Model of JavaScript `Math.trunc`: rounding toward zero, computed with
truncating integer division. -/
def jsTrunc (q : ℚ) : ℤ :=
  q.num.tdiv q.den

/-- Model of JavaScript `Math.round`: round half toward positive infinity. -/
def jsRound (q : ℚ) : ℤ :=
  ratFloor (q + 1 / 2)

/-- Model of the JavaScript `%` remainder: same sign as the dividend,
`a % b = a - b * trunc (a / b)`. -/
def jsMod (a b : ℚ) : ℚ :=
  a - b * (jsTrunc (a / b) : ℚ)

/-- Duration of a single frame in milliseconds (`FRAME_MS` in anim.ts). -/
def FRAME_MS : ℚ := 16

/-- Model of `Number.MAX_SAFE_INTEGER` (`MAX_TIME` in anim.ts). -/
def MAX_TIME : ℚ := 9007199254740991

/-!
## TimelineEntity (entities.ts, class TimelineEntity)

State of a leaf timeline entity (the base class of `TweenGroup`, `Delay`
and `PlayerEntity`).  The field defaults are the initializers of the class.
The single-shot `releaseCb` callback is modelled by the flag `hasReleaseCb`
(`true` when a callback is attached and not yet consumed).
The source's `delayTime` is the spec's `delayedStartTime` and the source's
`releaseTime` is the spec's `delayedEndTime`.
-/

structure Entity (T : Type) [LinearOrderedCommRing T] where
  delay : T := 0
  release : T := 0
  duration : T := -1
  startTime : T := -1
  delayTime : T := -1
  releaseTime : T := -1
  doneTime : T := -1
  endTime : T := -1
  isRunning : Bool := false
  startRegistered : Bool := false
  endRegistered : Bool := false
  released : Bool := false
  done : Bool := false
  hasReleaseCb : Bool := false
deriving DecidableEq

/-- Entity with all fields at their class-initializer values. -/
def defaultEntity (T : Type) [LinearOrderedCommRing T] : Entity T := {}

/-- Model of `TimelineEntity.init(startTime)` (entities.ts lines 40-59).
Negative `delay` is clamped to 0; when `duration >= 0` the derived time
points are computed and `release` is clamped so that
`releaseTime >= delayTime`. -/
def entityInit {T : Type} [LinearOrderedCommRing T] (e0 : Entity T) (startTime : T) :
    Entity T :=
  let e1 : Entity T := { e0 with startTime := startTime }
  let e2 : Entity T := if e1.delay < 0 then { e1 with delay := 0 } else e1
  let e3 : Entity T := { e2 with delayTime := startTime + e2.delay }
  if 0 ≤ e3.duration then
    let doneTime := e3.delayTime + e3.duration
    let e4 : Entity T := { e3 with doneTime := doneTime, releaseTime := doneTime + e3.release }
    let e5 : Entity T :=
      if e4.releaseTime < e4.delayTime then
        { e4 with release := -e4.duration, releaseTime := e4.delayTime }
      else e4
    let e6 : Entity T := { e5 with endTime := e5.doneTime }
    if e6.releaseTime > e6.endTime then { e6 with endTime := e6.releaseTime } else e6
  else e3

/-- Model of `TimelineEntity.getNextMarkerPosition(time, forward)`
(entities.ts lines 82-114).  Returns -1 when no marker position lies
strictly past `time` in the traversal direction. -/
def entityGNMP {T : Type} [LinearOrderedCommRing T] (e : Entity T) (time : T)
    (forward : Bool) : T :=
  if forward then
    if time < e.delayTime then e.delayTime
    else if e.hasReleaseCb then
      if e.release ≤ 0 then
        if time < e.releaseTime then e.releaseTime
        else if time < e.doneTime then e.doneTime
        else -1
      else
        if time < e.doneTime then e.doneTime
        else if time < e.releaseTime then e.releaseTime
        else -1
    else
      if time < e.doneTime then e.doneTime
      else -1
  else
    if time > e.doneTime then e.doneTime
    else if time > e.delayTime then e.delayTime
    else -1

/-- Specification-side helper: the first element of `cands` (in list order)
strictly greater than `time`, or -1 when none is. -/
def firstPastForward {T : Type} [LinearOrderedCommRing T] (time : T) : List T → T
  | [] => -1
  | c :: rest => if time < c then c else firstPastForward time rest

/-- Specification-side helper: the first element of `cands` (in list order)
strictly less than `time`, or -1 when none is. -/
def firstPastBackward {T : Type} [LinearOrderedCommRing T] (time : T) : List T → T
  | [] => -1
  | c :: rest => if c < time then c else firstPastBackward time rest

/-!
## PlayerEntity (entities.ts, class PlayerEntity)

A `PlayerEntity` wraps a sub-timeline with `times` / `alternate` / `speed` /
`backSpeed` playback parameters.  Only the parts relevant to duration
computation and the per-frame child seek target are modelled here; the call
`tl.move(x, false)` performed by `displayFrame` is modelled by returning the
seek position `x` that would be passed to the wrapped timeline.
-/

/-- Control parameter defaults resolved through the settings chain
(`defaultSettings` in anim.ts; easing is not needed here). -/
structure ControlDefaults where
  duration : ℚ := 1000
  delay : ℚ := 0
  release : ℚ := 0
  elasticity : ℚ := 1 / 2
  speed : ℚ := 1
deriving DecidableEq

/-- Resolved `defaultSettings` record of anim.ts. -/
def defaultSettings : ControlDefaults := {}

/-- Model of `parseValue(name, params, defaults)` (utils.ts): the param value
when defined, otherwise the default. -/
def parseValueQ (v : Option ℚ) (d : ℚ) : ℚ :=
  v.getD d

/-- Model of the JavaScript expression `v || d` for numbers: `undefined` and
`0` are falsy and give the default. -/
def jsOrQ (v : Option ℚ) (d : ℚ) : ℚ :=
  match v with
  | none => d
  | some x => if x = 0 then d else x

/-- Model of the JavaScript expression `v || d` for booleans. -/
def jsOrB (v : Option Bool) (d : Bool) : Bool :=
  match v with
  | none => d
  | some b => if b = false then d else b

/-- Model of the `PlayParams` object accepted by `timeline.play` (types.ts):
each field may be absent. -/
structure PlayParamsM where
  alternate : Option Bool := none
  times : Option ℚ := none
  speed : Option ℚ := none
  backSpeed : Option ℚ := none
  delay : Option ℚ := none
  release : Option ℚ := none
deriving DecidableEq

/-- State of a `PlayerEntity` (entities.ts lines 334-360): the inherited
`TimelineEntity` fields plus the playback parameters and the two cycle leg
durations. -/
structure PlayerEntityM where
  base : Entity ℚ
  alternate : Bool
  times : ℚ
  speed : ℚ
  backSpeed : ℚ
  d1 : ℚ
  d2 : ℚ
deriving DecidableEq

/-- Model of the `PlayerEntity` constructor (entities.ts lines 343-360):
field initializers, then the `if (params)` block.  Note that
`params.times || 1` maps an explicit `times: 0` to the default 1. -/
def mkPlayerEntity (defaults : ControlDefaults) (params : Option PlayParamsM) : PlayerEntityM :=
  match params with
  | none =>
    { base := defaultEntity ℚ, alternate := false, times := 1, speed := 1, backSpeed := 1,
      d1 := -1, d2 := -1 }
  | some p =>
    { base := { defaultEntity ℚ with
                delay := parseValueQ p.delay defaults.delay,
                release := parseValueQ p.release defaults.release },
      times := jsOrQ p.times 1,
      alternate := jsOrB p.alternate false,
      speed := jsOrQ p.speed 1,
      backSpeed := jsOrQ p.backSpeed 1,
      d1 := -1, d2 := -1 }

/-- Model of the `doneCb` closure installed on the wrapped timeline by the
`PlayerEntity` constructor (entities.ts lines 354-359): on the wrapped
timeline's first completion with total duration `tlDuration`, compute `d1`,
`d2` and `duration`, then re-run `init(startTime)`. -/
def playerDoneCb (p : PlayerEntityM) (tlDuration : ℚ) : PlayerEntityM :=
  let d1 : ℚ := (jsTrunc (tlDuration / p.speed) : ℚ)
  let d2 : ℚ := if p.alternate then (jsTrunc (tlDuration / p.backSpeed) : ℚ) else 0
  let p2 : PlayerEntityM :=
    { p with
      d1 := d1, d2 := d2,
      base := { p.base with duration := (d1 + d2) * p.times } }
  { p2 with base := entityInit p2.base p2.base.startTime }

/-- Model of the child seek performed by `PlayerEntity.displayFrame`
(entities.ts lines 408-434): returns the position passed to
`timeLine.move(_, false)` at local time `time`, or `none` when no child move
is issued this frame. -/
def playerChildSeek (p : PlayerEntityM) (time : ℚ) : Option ℚ :=
  if p.base.delayTime ≤ time then
    if p.base.duration = -1 then
      some ((time - p.base.delayTime) * p.speed)
    else
      if p.base.delayTime ≤ time ∧ time ≤ p.base.doneTime then
        let cycleLength : ℚ := (jsTrunc (p.d1 + p.d2) : ℚ)
        let t0 : ℚ := jsMod (time - p.base.delayTime) cycleLength
        let t : ℚ := if t0 = 0 ∧ time ≠ p.base.delayTime then cycleLength else t0
        if t ≤ p.d1 then
          some (t * p.speed)
        else
          some ((cycleLength - t) * p.backSpeed)
      else none
  else none

/-- Concrete scenario of the spec: `times=2, alternate=true, speed=1,
backSpeed=2`, zero delay and release, attached and initialized at local
time 0. -/
def examplePlayer0 : PlayerEntityM :=
  let p := mkPlayerEntity defaultSettings
    (some { times := some 2, alternate := some true, speed := some 1,
            backSpeed := some 2, delay := some 0, release := some 0 })
  { p with base := entityInit p.base 0 }

/-- The example player after its wrapped 32 ms timeline reports its
duration. -/
def examplePlayer : PlayerEntityM :=
  playerDoneCb examplePlayer0 32

/-- PlayerEntity constructed with `times: 0` (everything else default),
attached at local time 0, after the wrapped timeline reports a 32 ms
duration. -/
def timesZeroPlayer : PlayerEntityM :=
  let p := mkPlayerEntity defaultSettings (some { times := some 0 })
  playerDoneCb { p with base := entityInit p.base 0 } 32

/-!
## exhaustAsyncPipe (anim.ts lines 80-112)

The async pipe drains pending microtasks until the global `ASYNC_COUNTER` is
stable.  The surrounding single-threaded event loop is modelled by an
environment function `env`: at loop iteration `n` with current counter value
`c`, the microtasks that run during `await Promise.resolve()` leave the
counter at `env n c`.  In the source the counter starts at 0 and is only
ever incremented or reset to 1, so all readings are nonnegative.
-/

/-- Maximum number of iterations of the async pipe loop (`MAX_ASYNC`). -/
def MAX_ASYNC : ℕ := 100

/-- Local state of the `exhaustAsyncPipe` loop: the two consecutive counter
readings `c1`/`c2`, the global counter, the iteration count and the count of
consecutive stable rounds. -/
structure AsyncState where
  c1 : ℤ
  c2 : ℤ
  counter : ℤ
  count : ℕ
  count2 : ℕ
deriving DecidableEq

/-- Model of one iteration of the `while` body of `exhaustAsyncPipe`:
await (the environment updates the counter), shift the readings, track
stable rounds, force `c1 = -1` unless at least two identical rounds have
passed, truncate the counter above 10000, increment `count`. -/
def asyncStep (env : ℕ → ℤ → ℤ) (s : AsyncState) : AsyncState :=
  let counter1 := env s.count s.counter
  let c1a := s.c2
  let c2a := counter1
  let count2a := if c1a = c2a then s.count2 + 1 else 0
  let c1b := if s.count = 0 ∨ count2a < 2 then -1 else c1a
  let counter2 := if counter1 > 10000 then 1 else counter1
  { c1 := c1b, c2 := c2a, counter := counter2, count := s.count + 1, count2 := count2a }

/-- The `while (c1 !== c2 && count < MAX_ASYNC)` loop, fuelled; the guard
increments `count` each round so `MAX_ASYNC` fuel always suffices. -/
def exhaustRun (env : ℕ → ℤ → ℤ) : ℕ → AsyncState → AsyncState
  | 0, s => s
  | fuel+1, s =>
    if s.c1 ≠ s.c2 ∧ s.count < MAX_ASYNC then exhaustRun env fuel (asyncStep env s) else s

/-- Loop state on entry to `exhaustAsyncPipe`: `c1 = -1`,
`c2 = ASYNC_COUNTER`. -/
def initAsync (counter0 : ℤ) : AsyncState :=
  { c1 := -1, c2 := counter0, counter := counter0, count := 0, count2 := 0 }

/-- Model of `exhaustAsyncPipe` (anim.ts lines 80-112): run the loop, then
throw "Max async loop reached" when the iteration count reached
`MAX_ASYNC`. -/
def exhaustAsyncPipe (env : ℕ → ℤ → ℤ) (counter0 : ℤ) : Except String AsyncState :=
  let s := exhaustRun env MAX_ASYNC (initAsync counter0)
  if s.count = MAX_ASYNC then .error "Max async loop reached" else .ok s

/-!
## adjustDuration and the animate timing values (anim.ts)
-/

/-- Model of `adjustDuration(durationMs, speed)` (anim.ts lines 59-61):
`round(ms / speed / FRAME_MS) * FRAME_MS`. -/
def adjustDuration (durationMs speed : ℚ) : ℚ :=
  (jsRound (durationMs / speed / FRAME_MS) : ℚ) * FRAME_MS

/-- The timing-related subset of `AnimateParams` (types.ts); any field may
be absent. -/
structure AnimateParamsM where
  duration : Option ℚ := none
  delay : Option ℚ := none
  release : Option ℚ := none
  speed : Option ℚ := none
deriving DecidableEq

/-- Model of the timing resolution at the start of `TimeLine.animate`
(anim.ts lines 672-682): resolve `speed` through the settings, then
quantize `duration`, `delay` and `release` with `adjustDuration`. -/
def animateTimingValues (params : AnimateParamsM) (defaults : ControlDefaults) : ℚ × ℚ × ℚ :=
  let speed := parseValueQ params.speed defaults.speed
  (adjustDuration (parseValueQ params.duration defaults.duration) speed,
   adjustDuration (parseValueQ params.delay defaults.delay) speed,
   adjustDuration (parseValueQ params.release defaults.release) speed)

/-!
## getAnimationType (utils.ts lines 47-54)
-/

/-- Model of the tween type strings of utils.ts (`attribute` and `function`
are Lean keywords, so those constructors are shortened to `attr` and
`fn`). -/
inductive TweenType where
  | transform
  | attr
  | css
  | fn
  | invalid
deriving DecidableEq

/-- The transform-function name set `TRANSFORMS` of utils.ts line 27 (note:
it does not contain the name "transform" itself). -/
def TRANSFORMS : List String :=
  ["translateX", "translateY", "translateZ", "rotate", "rotateX", "rotateY", "rotateZ",
   "scale", "scaleX", "scaleY", "scaleZ", "skewX", "skewY", "perspective"]

/-- Observable state of a DOM element as probed by `getAnimationType`:
whether `el.nodeType` is truthy, whether `el.ownerSVGElement` is defined
(`isSVG`), and per property name whether `el.getAttribute(name)` and
`el[name]` are truthy. -/
structure DomElementM where
  nodeTypeTruthy : Bool
  isSVG : Bool
  attrTruthy : String → Bool
  propTruthy : String → Bool

/-- A resolved animate target: either a target function or a DOM element. -/
inductive AnimTargetM where
  | fnTarget
  | elem (e : DomElementM)

/-- Model of `getAnimationType(el, propName)` (utils.ts lines 47-54).  A
function target has neither `nodeType` nor `ownerSVGElement`, so the guard
`el.nodeType || isSVG(el)` fails and the result is `invalid`. -/
def getAnimationType : AnimTargetM → String → TweenType
  | .fnTarget, _ => .invalid
  | .elem e, propName =>
    if e.nodeTypeTruthy || e.isSVG then
      if TRANSFORMS.contains propName then .transform
      else if e.attrTruthy propName || (e.isSVG && e.propTruthy propName) then .attr
      else if propName ≠ "transform" then .css
      else .invalid
    else .invalid

/-- The resolution priority claimed by the specification: function targets
give `function`; an element with the attribute set (or an SVG element with
a truthy property) gives `attribute`; then the transform set gives
`transform`; any other element property gives `css`; otherwise
`invalid`. -/
def claimedAnimationType : AnimTargetM → String → TweenType
  | .fnTarget, _ => .fn
  | .elem e, propName =>
    if e.nodeTypeTruthy || e.isSVG then
      if e.attrTruthy propName || (e.isSVG && e.propTruthy propName) then .attr
      else if TRANSFORMS.contains propName then .transform
      else .css
    else .invalid

/-- The resolution priority the source actually implements, written out as
the amended claim: non-elements give `invalid`; transform-set names give
`transform` before the attribute probe; the name "transform" itself,
without the attribute set, gives `invalid` rather than `css`. -/
def amendedAnimationType (t : AnimTargetM) (propName : String) : TweenType :=
  match t with
  | .fnTarget => .invalid
  | .elem e =>
    if !(e.nodeTypeTruthy || e.isSVG) then .invalid
    else if TRANSFORMS.contains propName then .transform
    else if e.attrTruthy propName || (e.isSVG && e.propTruthy propName) then .attr
    else if propName = "transform" then .invalid
    else .css

/-- A DOM element (non-SVG) whose attribute "rotate" is set. -/
def rotAttrElement : DomElementM :=
  { nodeTypeTruthy := true, isSVG := false,
    attrTruthy := fun p => p == "rotate", propTruthy := fun _ => false }

/-- A DOM element (non-SVG) with no attributes and no truthy properties. -/
def plainElement : DomElementM :=
  { nodeTypeTruthy := true, isSVG := false,
    attrTruthy := fun _ => false, propTruthy := fun _ => false }

/-!
## Integer model of the TimeLine class (anim.ts)

All times handled by the quantized engine are integer multiples of the
16 ms frame (see the C7 theorem below), so the timeline bookkeeping is
modelled over ℤ.  Each definition mirrors one method of `TimeLine` or
`TimelineEntity`; cursor walks and the display loop take an explicit fuel
argument in place of the source's unbounded `while` loops.
-/

def frameMsInt : ℤ := 16

def maxTimeInt : ℤ := 9007199254740991

structure Marker where
  time : ℤ
  startEntities : List ℕ := []
  endEntities : List ℕ := []
deriving DecidableEq

structure EntitySpec where
  delay : ℤ := 0
  duration : ℤ := 0
  release : ℤ := 0
  withReleaseCb : Bool := true
deriving DecidableEq

structure TL where
  specs : List EntitySpec
  startTime : ℤ := 0
  currentTime : ℤ := -1
  endTime : ℤ := -1
  moveTarget : ℤ := 0
  markers : List Marker := []
  currentMarker : ℕ := 0
  entities : List (Entity ℤ) := []
  rList : List ℕ := []
  lastTargetTime : ℤ := -1
  lastTargetForward : Bool := true
  tlFunctionCalled : Bool := false
  tlFunctionComplete : Bool := false
  released : Bool := false
  done : Bool := false
  asyncCounter : ℕ := 0
deriving DecidableEq

def initTL (specs : List EntitySpec) : TL := { specs := specs }

def getEntity (tl : TL) (id : ℕ) : Entity ℤ := tl.entities.getD id (defaultEntity ℤ)

def setEntity (tl : TL) (id : ℕ) (e : Entity ℤ) : TL :=
  { tl with entities := tl.entities.set id e }

def createMarkerGo (tl : TL) (time : ℤ) : ℕ → ℕ → TL × ℕ
  | _, 0 => (tl, tl.currentMarker)
  | i, fuel+1 =>
    match tl.markers.get? i with
    | none => (tl, tl.currentMarker)
    | some m =>
      if m.time = time then (tl, i)
      else if time > m.time then
        match tl.markers.get? (i+1) with
        | some m2 =>
          if m2.time ≤ time then createMarkerGo tl time (i+1) fuel
          else
            ({ tl with markers := tl.markers.insertIdx (i+1) { time := time },
                       currentMarker := i+1 }, i+1)
        | none =>
          ({ tl with markers := tl.markers.insertIdx (i+1) { time := time },
                     currentMarker := i+1 }, i+1)
      else
        if i = 0 then
          ({ tl with markers := tl.markers.insertIdx 0 { time := time },
                     currentMarker := 0 }, 0)
        else
          match tl.markers.get? (i-1) with
          | some m2 =>
            if m2.time ≥ time then createMarkerGo tl time (i-1) fuel
            else
              ({ tl with markers := tl.markers.insertIdx i { time := time },
                         currentMarker := i }, i)
          | none =>
            ({ tl with markers := tl.markers.insertIdx i { time := time },
                       currentMarker := i }, i)

def createMarkerTL (tl : TL) (time : ℤ) : TL × ℕ :=
  if tl.markers.isEmpty then
    ({ tl with markers := [{ time := time }], currentMarker := 0 }, 0)
  else createMarkerGo tl time tl.currentMarker (tl.markers.length + 1)

def getMarkerGo (tl : TL) (time : ℤ) (fwd : Bool) : ℕ → ℕ → Option ℕ
  | _, 0 => none
  | i, fuel+1 =>
    match tl.markers.get? i with
    | none => none
    | some m =>
      if m.time = time then some i
      else if fwd ∧ m.time ≤ time then getMarkerGo tl time fwd (i+1) fuel
      else if ¬fwd ∧ m.time ≥ time then
        if i = 0 then none else getMarkerGo tl time fwd (i-1) fuel
      else none

def getMarkerTL (tl : TL) (time : ℤ) : Option ℕ :=
  match tl.markers.get? tl.currentMarker with
  | none => none
  | some m => getMarkerGo tl time (decide (time ≥ m.time)) tl.currentMarker (tl.markers.length + 1)

def removeEntityTL (tl : TL) (id : ℕ) : TL :=
  let tl := { tl with asyncCounter := tl.asyncCounter + 1 }
  let e := getEntity tl id
  let tl :=
    if ¬e.endRegistered ∧ tl.lastTargetForward then
      let r := createMarkerTL tl tl.currentTime
      let tl3 :=
        match r.1.markers.get? r.2 with
        | some m =>
          { r.1 with markers := r.1.markers.set r.2 { m with endEntities := m.endEntities ++ [id] } }
        | none => r.1
      setEntity tl3 id { getEntity tl3 id with endRegistered := true }
    else tl
  let tl := { tl with rList := tl.rList.erase id }
  setEntity tl id { getEntity tl id with isRunning := false }

def checkDoneAndReleaseTL (tl : TL) (id : ℕ) (time : ℤ) (fwd : Bool) : TL :=
  let e := getEntity tl id
  let e := if time = e.doneTime then { e with done := true } else e
  let tl := setEntity tl id e
  let tl :=
    if e.done ∧ ((fwd ∧ time = e.endTime) ∨ (¬fwd ∧ time = e.startTime)) then
      removeEntityTL tl id
    else tl
  let e2 := getEntity tl id
  if time = e2.releaseTime then
    setEntity tl id { e2 with released := true, hasReleaseCb := false }
  else tl

def entityDisplayFrameTL (tl : TL) (id : ℕ) (time : ℤ) (fwd : Bool) : TL :=
  checkDoneAndReleaseTL tl id time fwd

def addEntityRegister (tl : TL) (id : ℕ) : TL :=
  let e := getEntity tl id
  if ¬e.startRegistered then
    let tl1 := setEntity tl id (entityInit e tl.currentTime)
    let r := createMarkerTL tl1 tl1.currentTime
    let tl3 :=
      match r.1.markers.get? r.2 with
      | some m =>
        { r.1 with markers := r.1.markers.set r.2 { m with startEntities := m.startEntities ++ [id] } }
      | none => r.1
    setEntity tl3 id { getEntity tl3 id with startRegistered := true }
  else tl

def addEntityTL (tl : TL) (id : ℕ) : TL :=
  let tl := addEntityRegister { tl with asyncCounter := tl.asyncCounter + 1 } id
  let tl := { tl with rList := tl.rList ++ [id] }
  let tl := setEntity tl id { getEntity tl id with isRunning := true }
  entityDisplayFrameTL tl id tl.currentTime tl.lastTargetForward

def loadEntitiesTL (tl : TL) (time : ℤ) (fwd : Bool) : TL :=
  match getMarkerTL tl time with
  | none => tl
  | some mi =>
    match tl.markers.get? mi with
    | none => tl
    | some m =>
      let startList := if fwd then m.startEntities else m.endEntities
      let endList := if fwd then m.endEntities else m.startEntities
      let tl := startList.reverse.foldl
        (fun acc id => if (getEntity acc id).isRunning then acc else addEntityTL acc id) tl
      endList.reverse.foldl
        (fun acc id => if (getEntity acc id).isRunning then removeEntityTL acc id else acc) tl

def checkStateTL (tl : TL) : TL :=
  if tl.released ∧ tl.done then tl
  else if tl.tlFunctionComplete ∧ tl.lastTargetForward then
    let allReleased := tl.rList.all (fun id => (getEntity tl id).released)
    let count := tl.rList.length
    let tl := if allReleased then { tl with released := true } else tl
    if count = 0 then { tl with done := true } else tl
  else tl

def setTlFunctionCompleteTL (tl : TL) : TL :=
  checkStateTL { tl with tlFunctionComplete := true, asyncCounter := tl.asyncCounter + 1 }

def spawnEntityTL (tl : TL) (spec : EntitySpec) : TL :=
  let id := tl.entities.length
  let e : Entity ℤ :=
    { defaultEntity ℤ with
      delay := spec.delay, duration := spec.duration, release := spec.release }
  let tl := { tl with entities := tl.entities ++ [e] }
  let tl := addEntityTL tl id
  let e2 := getEntity tl id
  if spec.withReleaseCb ∧ ¬e2.released then
    setEntity tl id { e2 with hasReleaseCb := true }
  else tl

def tlDisplayFrame (tl : TL) (time targetTime : ℤ) (fwd : Bool) : TL :=
  let tl : TL := { tl with currentTime := time, lastTargetTime := targetTime,
                           lastTargetForward := fwd }
  if ¬tl.tlFunctionCalled then
    let tl := { tl with tlFunctionCalled := true }
    let tl := tl.specs.foldl (fun acc spec => spawnEntityTL acc spec) tl
    let tl := setTlFunctionCompleteTL tl
    checkStateTL tl
  else
    let ids := tl.rList
    let tl := ids.foldl (fun acc id => entityDisplayFrameTL acc id time fwd) tl
    let tl := loadEntitiesTL tl time fwd
    checkStateTL tl

def gNMPchildren (tl : TL) (time : ℤ) (fwd : Bool) : ℤ × Bool :=
  tl.rList.foldl
    (fun (acc : ℤ × Bool) id =>
      let n2 := entityGNMP (getEntity tl id) time fwd
      if n2 > -1 then
        if fwd then
          if time < n2 ∧ n2 < acc.1 then (n2, true) else acc
        else
          if time > n2 ∧ n2 > acc.1 then (n2, true) else acc
      else acc)
    (if fwd then (maxTimeInt, false) else (-1, false))

def gNMPscan (tl : TL) (time : ℤ) (fwd : Bool) :
    ℤ → Bool → ℕ → Option ℕ → ℕ → ℤ × Bool × ℕ
  | n, found, cursor, _, 0 => (n, found, cursor)
  | n, found, cursor, oi, fuel+1 =>
    match oi with
    | none => (n, found, cursor)
    | some j =>
      match tl.markers.get? j with
      | none => (n, found, cursor)
      | some m =>
        if fwd then
          if m.time > time then
            if found ∧ n = m.time then (n, found, j)
            else if m.time < n then
              gNMPscan tl time fwd m.time true cursor (if j = 0 then none else some (j-1)) fuel
            else (n, found, cursor)
          else gNMPscan tl time fwd n found cursor (some (j+1)) fuel
        else
          if m.time < time then
            if found ∧ n = m.time then (n, found, j)
            else if m.time > n then
              gNMPscan tl time fwd m.time true cursor (some (j+1)) fuel
            else (n, found, cursor)
          else gNMPscan tl time fwd n found cursor (if j = 0 then none else some (j-1)) fuel

def tlGNMP (tl : TL) (time : ℤ) (fwd : Bool) : ℤ × ℕ :=
  if |time - tl.currentTime| = frameMsInt then (time, tl.currentMarker)
  else
    let c := gNMPchildren tl time fwd
    let r := gNMPscan tl time fwd c.1 c.2 tl.currentMarker (some tl.currentMarker)
      (2 * tl.markers.length + 2)
    (if r.2.1 then r.1 else -1, r.2.2)

def moveLoop (timeTarget : ℤ) (fwd : Bool) : ℕ → TL → Option TL
  | 0, _ => none
  | fuel+1, tl =>
    if tl.currentTime = tl.moveTarget then some tl
    else if tl.currentTime < 0 then
      let tl := if tl.startTime < 0 then { tl with startTime := 0 } else tl
      let tl := tlDisplayFrame tl tl.startTime timeTarget fwd
      moveLoop timeTarget fwd fuel tl
    else
      let tl :=
        if fwd ≠ tl.lastTargetForward then
          match getMarkerTL tl tl.currentTime with
          | some _ => tlDisplayFrame tl tl.currentTime timeTarget fwd
          | none => tl
        else tl
      let r := tlGNMP tl tl.currentTime fwd
      let tl := { tl with currentMarker := r.2 }
      if r.1 < 0 ∨ r.1 = tl.currentTime then
        some { tl with moveTarget := tl.currentTime, endTime := tl.currentTime }
      else
        let nextTarget :=
          if fwd then (if r.1 > timeTarget then timeTarget else r.1)
          else (if r.1 < timeTarget then timeTarget else r.1)
        let tl := tlDisplayFrame tl nextTarget timeTarget fwd
        moveLoop timeTarget fwd fuel tl

def move (fuel : ℕ) (tl : TL) (timeTarget : ℤ) : Option (TL × ℤ) :=
  let tl : TL := { tl with moveTarget := timeTarget }
  if timeTarget = tl.currentTime then some (tl, tl.currentTime)
  else
    (moveLoop timeTarget (decide (timeTarget > tl.currentTime)) fuel tl).map
      (fun tl2 => (tl2, tl2.currentTime))

def animateModel (tl : TL) (targetIsFn : Bool) (resolvedTarget : Option ℕ)
    (spec : EntitySpec) : TL × Bool :=
  if targetIsFn then (spawnEntityTL tl spec, true)
  else
    match resolvedTarget with
    | none => (tl, false)
    | some _ => (spawnEntityTL tl spec, true)

def playerPosition (tl : TL) : ℤ :=
  if tl.currentTime < 0 then 0 else tl.currentTime

/-- The management fields of a timeline state that none of the entity and
marker bookkeeping operations touch. -/
def chrome (tl : TL) : ℤ × ℤ × ℤ × Bool :=
  (tl.currentTime, tl.startTime, tl.moveTarget, tl.lastTargetForward)

/-- Entity well-formedness: each derived time point is either unset (-1) or
nonnegative. -/
def EWF (e : Entity ℤ) : Prop :=
  (e.delayTime = -1 ∨ 0 ≤ e.delayTime) ∧
  (e.doneTime = -1 ∨ 0 ≤ e.doneTime) ∧
  (e.releaseTime = -1 ∨ 0 ≤ e.releaseTime)

/-- Well-formedness of a (root) timeline state: the current time is the
initial -1 or nonnegative, the root start time is 0, all markers sit at
nonnegative times, and every pooled entity is well-formed. -/

def WF (tl : TL) : Prop :=
  (tl.currentTime = -1 ∨ 0 ≤ tl.currentTime) ∧
  tl.startTime = 0 ∧
  (∀ m ∈ tl.markers, 0 ≤ m.time) ∧
  (∀ e ∈ tl.entities, EWF e)

/-- Entities of the pool are all well-formed. -/
def PoolEWF (tl : TL) : Prop := ∀ e ∈ tl.entities, EWF e

/-- Local effect of one bookkeeping operation: the chrome is untouched, new
markers sit only at the operation-time, and pool well-formedness is kept. -/
def LocalOK (c : ℤ) (st st2 : TL) : Prop :=
  chrome st2 = chrome st ∧
  (∀ m ∈ st2.markers, (∃ m0 ∈ st.markers, m0.time = m.time) ∨ m.time = c) ∧
  (PoolEWF st → PoolEWF st2)

def MInv (t : ℤ) (fwd : Bool) (tl : TL) : Prop :=
  WF tl ∧ tl.moveTarget = t ∧
  (fwd = true → tl.currentTime ≤ t) ∧ (fwd = false → t ≤ tl.currentTime)

def StuckOut (t : ℤ) (fwd : Bool) (tl : TL) : Prop :=
  tl.moveTarget = tl.currentTime ∧ tl.endTime = tl.currentTime ∧ 0 ≤ tl.currentTime ∧
  tl.currentTime ≠ t ∧ decide (t > tl.currentTime) = fwd ∧
  (tl.lastTargetForward = fwd ∨ getMarkerTL tl tl.currentTime = none) ∧
  tlGNMP tl tl.currentTime fwd = (-1, tl.currentMarker)

def c1tl0 : TL := initTL [{ delay := 0, duration := 16, release := 0, withReleaseCb := true }]

def c1tl1 : TL := ((move 8 c1tl0 32).getD (c1tl0, 0)).1

/-- Helper invariant of the async pipe loop: readings are nonnegative, and
the readings can only agree after at least two stable rounds (because `c1`
is forced to -1 otherwise). -/
def AsyncInv (s : AsyncState) : Prop :=
  0 ≤ s.c2 ∧ (s.c1 = s.c2 → 2 ≤ s.count2 ∧ 0 < s.count)

/-!
## Bridge lemmas for the JavaScript numeric helpers
-/

/-- Helper: `ratFloor` computes the mathematical floor. -/
theorem ratFloor_eq_floor (q : ℚ) : ratFloor q = ⌊q⌋ := by
  rw [Rat.floor_def, ratFloor, Int.fdiv_eq_ediv _ (by positivity)]

/-- Helper: `jsRound` is `⌊q + 1/2⌋`, the JavaScript `Math.round`. -/
theorem jsRound_eq (q : ℚ) : jsRound q = ⌊q + 1 / 2⌋ := by
  rw [jsRound, ratFloor_eq_floor]

/-- Helper: `jsTrunc` rounds toward zero, the JavaScript `Math.trunc`. -/
theorem jsTrunc_eq (q : ℚ) : jsTrunc q = if q < 0 then ⌈q⌉ else ⌊q⌋ := by
  rcases lt_or_le q 0 with h | h
  · have hceil : ⌈q⌉ = -⌊-q⌋ := by rw [← Int.ceil_neg, neg_neg]
    rw [if_pos h, jsTrunc, hceil, Rat.floor_def, Rat.neg_num, Rat.neg_den]
    have hn : 0 ≤ -q.num := by
      have : q.num < 0 := Rat.num_neg.mpr h
      omega
    rw [← Int.tdiv_eq_ediv hn (by positivity), ← Int.neg_tdiv, neg_neg]
  · rw [if_neg (not_lt.mpr h), jsTrunc, Rat.floor_def,
      Int.tdiv_eq_ediv (Rat.num_nonneg.mpr h) (by positivity)]

/-!
## C2: TimelineEntity.getNextMarkerPosition candidate order
-/

/-- C2: `getNextMarkerPosition(time, forward)` returns the first candidate
strictly past `time` in the traversal direction, taking the candidates in
the order `delayedStartTime, delayedEndTime, doneTime` going forward with
`release <= 0` and a pending release callback, in the order
`delayedStartTime, doneTime, delayedEndTime` going forward with
`release > 0` and a pending release callback, in the order
`delayedStartTime, doneTime` once the release callback has been consumed,
and in the order `doneTime, delayedStartTime` going backward; it returns -1
when no candidate lies past `time`. -/
theorem c2_getNextMarkerPosition_candidates (e : Entity ℚ) (time : ℚ) :
    (e.hasReleaseCb = true → e.release ≤ 0 →
      entityGNMP e time true = firstPastForward time [e.delayTime, e.releaseTime, e.doneTime]) ∧
    (e.hasReleaseCb = true → 0 < e.release →
      entityGNMP e time true = firstPastForward time [e.delayTime, e.doneTime, e.releaseTime]) ∧
    (e.hasReleaseCb = false →
      entityGNMP e time true = firstPastForward time [e.delayTime, e.doneTime]) ∧
    (entityGNMP e time false = firstPastBackward time [e.doneTime, e.delayTime]) := by
  refine ⟨fun hcb hrel => ?_, fun hcb hrel => ?_, fun hcb => ?_, ?_⟩
  · simp only [entityGNMP, firstPastForward]
    split_ifs <;> simp_all
  · simp only [entityGNMP, firstPastForward]
    split_ifs <;> simp_all <;> linarith
  · simp only [entityGNMP, firstPastForward]
    split_ifs <;> simp_all
  · simp only [entityGNMP, firstPastBackward]
    split_ifs <;> simp_all

/-- C2 witness: a concrete entity with a pending release callback and
`release = 0`, probed at time 0. -/
theorem c2_witness :
    ({ delayTime := 0, releaseTime := 16, doneTime := 16,
       hasReleaseCb := true : Entity ℚ }).release ≤ 0 ∧
    entityGNMP ({ delayTime := 0, releaseTime := 16, doneTime := 16,
                  hasReleaseCb := true : Entity ℚ }) 0 true =
      firstPastForward 0 [(0 : ℚ), 16, 16] := by
  refine ⟨by norm_num, ?_⟩
  exact (c2_getNextMarkerPosition_candidates
    { delayTime := 0, releaseTime := 16, doneTime := 16, hasReleaseCb := true } 0).1 rfl
    (by norm_num)

/-!
## C5: ordering invariants established by TimelineEntity.init
-/

/-- C5: after `init(startTime)` runs with `duration >= 0`, the ordering
`delayedStartTime <= delayedEndTime <= endTime` and
`delayedStartTime <= doneTime <= endTime` holds; moreover if the caller
supplied `release < -duration` then `release` is clamped to `-duration` so
that `delayedEndTime = delayedStartTime`. -/
theorem c5_init_ordering (e : Entity ℚ) (st : ℚ) (hd : 0 ≤ e.duration) :
    ((entityInit e st).delayTime ≤ (entityInit e st).releaseTime ∧
      (entityInit e st).releaseTime ≤ (entityInit e st).endTime ∧
      (entityInit e st).delayTime ≤ (entityInit e st).doneTime ∧
      (entityInit e st).doneTime ≤ (entityInit e st).endTime) ∧
    (e.release < -e.duration →
      (entityInit e st).release = -e.duration ∧
      (entityInit e st).releaseTime = (entityInit e st).delayTime) := by
  constructor
  · simp only [entityInit]
    split_ifs <;> simp_all <;>
      first
        | linarith
        | exact ⟨by linarith, by linarith, by linarith, by linarith⟩
  · intro hrel
    simp only [entityInit]
    split_ifs <;> simp_all <;>
      first
        | linarith
        | exact ⟨by linarith, by linarith⟩

/-- C5 witness: an entity with duration 32 and release -100 initialized at
time 0 gets its release clamped. -/
theorem c5_witness :
    (0 : ℚ) ≤ ({ duration := 32, release := -100, delay := 0 : Entity ℚ }).duration ∧
    (entityInit ({ duration := 32, release := -100, delay := 0 : Entity ℚ }) 0).releaseTime =
      (entityInit ({ duration := 32, release := -100, delay := 0 : Entity ℚ }) 0).delayTime := by
  refine ⟨by norm_num, ?_⟩
  exact ((c5_init_ordering { duration := 32, release := -100, delay := 0 } 0
    (by norm_num)).2 (by norm_num)).2

/-!
## C3 and C4: PlayerEntity duration discovery and times handling
-/

/-- Helper: `init` never modifies the `duration` field. -/
theorem entityInit_duration {T : Type} [LinearOrderedCommRing T] (e : Entity T) (st : T) :
    (entityInit e st).duration = e.duration := by
  simp only [entityInit]
  split_ifs <;> rfl

/-- Helper: duration computed by the `doneCb` closure of PlayerEntity. -/
theorem playerDoneCb_duration (p : PlayerEntityM) (td : ℚ) :
    (playerDoneCb p td).base.duration =
      ((jsTrunc (td / p.speed) : ℚ) +
        (if p.alternate then (jsTrunc (td / p.backSpeed) : ℚ) else 0)) * p.times := by
  simp only [playerDoneCb, entityInit_duration]

/-- Helper: fully evaluated example player state. -/
theorem examplePlayer_eval :
    examplePlayer =
      { base := { delay := 0, release := 0, duration := 96, startTime := 0, delayTime := 0,
                  releaseTime := 96, doneTime := 96, endTime := 96 },
        alternate := true, times := 2, speed := 1, backSpeed := 2, d1 := 32, d2 := 16 } := by
  norm_num [examplePlayer, examplePlayer0, playerDoneCb, mkPlayerEntity, entityInit,
    jsOrQ, jsOrB, parseValueQ, defaultSettings, defaultEntity, jsTrunc_eq]

/-- Helper: fully evaluated times-zero player state. -/
theorem timesZeroPlayer_eval :
    timesZeroPlayer =
      { base := { delay := 0, release := 0, duration := 32, startTime := 0, delayTime := 0,
                  releaseTime := 32, doneTime := 32, endTime := 32 },
        alternate := false, times := 1, speed := 1, backSpeed := 1, d1 := 32, d2 := 0 } := by
  norm_num [timesZeroPlayer, playerDoneCb, mkPlayerEntity, entityInit,
    jsOrQ, jsOrB, parseValueQ, defaultSettings, defaultEntity, jsTrunc_eq]

/-- C3: when the wrapped timeline first reports its duration `tlDuration`,
the PlayerEntity duration becomes
`(trunc(tlDuration/speed) + (alternate ? trunc(tlDuration/backSpeed) : 0)) * times`;
for the example player (`times=2, alternate=true, speed=1, backSpeed=2`
wrapping a 32 ms timeline) `d1=32`, `d2=16`, `cycleLength=48`,
`duration=96`, and `displayFrame` at 40 ms past `delayedStartTime` seeks
the wrapped timeline to `(48-40)*2 = 16`. -/
theorem c3_player_duration_and_seek :
    (∀ (p : PlayerEntityM) (td : ℚ),
      (playerDoneCb p td).base.duration =
        ((jsTrunc (td / p.speed) : ℚ) +
          (if p.alternate then (jsTrunc (td / p.backSpeed) : ℚ) else 0)) * p.times) ∧
    examplePlayer.d1 = 32 ∧ examplePlayer.d2 = 16 ∧
    examplePlayer.d1 + examplePlayer.d2 = 48 ∧
    examplePlayer.base.duration = 96 ∧
    playerChildSeek examplePlayer (examplePlayer.base.delayTime + 40) = some ((48 - 40) * 2) := by
  rw [examplePlayer_eval]
  refine ⟨playerDoneCb_duration, by norm_num, by norm_num, by norm_num, by norm_num, ?_⟩
  norm_num [playerChildSeek, jsMod, jsTrunc_eq]

/-- C4 counterexample: a `PlayerEntity` constructed with `times: 0` does not
behave like a zero-duration Delay: the constructor coerces `times` to 1, the
duration after the wrapped timeline reports 32 ms is 32 (not 0), and the
entity still issues child frames (at local time 16 it seeks its wrapped
timeline to 16). -/
theorem c4_counterexample :
    timesZeroPlayer.times = 1 ∧
    timesZeroPlayer.base.duration = 32 ∧
    timesZeroPlayer.base.duration ≠ 0 ∧
    playerChildSeek timesZeroPlayer 16 = some 16 := by
  rw [timesZeroPlayer_eval]
  refine ⟨by norm_num, by norm_num, by norm_num, ?_⟩
  norm_num [playerChildSeek, jsMod, jsTrunc_eq]

/-- C4 amended: a `PlayerEntity` constructed with `times: 0` has `times`
coerced to the default 1 (`params.times || 1` treats 0 as absent), so after
the wrapped timeline reports duration `td` its duration is `d1 + d2` (one
full cycle), exactly as for `times = 1` - not 0. -/
theorem c4_times_zero_coerced (defaults : ControlDefaults) (p : PlayParamsM) (q td : ℚ)
    (h : p.times = some 0) :
    (mkPlayerEntity defaults (some p)).times = 1 ∧
    (playerDoneCb
        { mkPlayerEntity defaults (some p) with
          base := entityInit (mkPlayerEntity defaults (some p)).base q } td).base.duration =
      (jsTrunc (td / (mkPlayerEntity defaults (some p)).speed) : ℚ) +
        (if (mkPlayerEntity defaults (some p)).alternate then
          (jsTrunc (td / (mkPlayerEntity defaults (some p)).backSpeed) : ℚ) else 0) := by
  have ht : (mkPlayerEntity defaults (some p)).times = 1 := by
    simp [mkPlayerEntity, jsOrQ, h]
  refine ⟨ht, ?_⟩
  rw [playerDoneCb_duration]
  simp [ht]

/-- C4 witness: the amended statement applied to concrete parameters
`times: 0`, attach time 0, wrapped duration 32. -/
theorem c4_times_zero_coerced_witness :
    (mkPlayerEntity defaultSettings (some { times := some 0 })).times = 1 :=
  (c4_times_zero_coerced defaultSettings { times := some 0 } 0 32 rfl).1

/-!
## C6: async pipe exhaustion
-/

/-- Helper: the loop never takes `count` above `MAX_ASYNC`. -/
theorem exhaustRun_count_le (env : ℕ → ℤ → ℤ) :
    ∀ (fuel : ℕ) (s : AsyncState), s.count ≤ MAX_ASYNC →
      (exhaustRun env fuel s).count ≤ MAX_ASYNC := by
  intro fuel
  induction fuel with
  | zero => intro s hs; exact hs
  | succ n ih =>
    intro s hs
    rw [exhaustRun]
    split_ifs with h
    · exact ih _ (by simp [asyncStep]; omega)
    · exact hs

/-- Helper: with `MAX_ASYNC` fuel the loop always runs until its guard is
false (fuel exhaustion cannot be observed). -/
theorem exhaustRun_guard_false (env : ℕ → ℤ → ℤ) :
    ∀ (fuel : ℕ) (s : AsyncState), MAX_ASYNC ≤ s.count + fuel →
      ¬((exhaustRun env fuel s).c1 ≠ (exhaustRun env fuel s).c2 ∧
        (exhaustRun env fuel s).count < MAX_ASYNC) := by
  intro fuel
  induction fuel with
  | zero =>
    intro s hs
    rw [exhaustRun]
    rintro ⟨-, h2⟩
    omega
  | succ n ih =>
    intro s hs
    rw [exhaustRun]
    split_ifs with h
    · exact ih _ (by simp [asyncStep]; omega)
    · exact h

/-- Helper: the loop preserves `AsyncInv` when the environment only
produces nonnegative counter values. -/
theorem exhaustRun_inv (env : ℕ → ℤ → ℤ) (henv : ∀ n c, 0 ≤ env n c) :
    ∀ (fuel : ℕ) (s : AsyncState), AsyncInv s → AsyncInv (exhaustRun env fuel s) := by
  intro fuel
  induction fuel with
  | zero => intro s hs; exact hs
  | succ n ih =>
    intro s hs
    rw [exhaustRun]
    split_ifs with h
    · refine ih _ ?_
      refine ⟨henv _ _, ?_⟩
      intro heq
      simp only [asyncStep] at heq ⊢
      constructor
      · by_contra hlt
        rw [if_pos (by omega)] at heq
        have := henv s.count s.counter
        omega
      · omega
    · exact hs

/-- C6: `exhaustAsyncPipe` terminates in at most `MAX_ASYNC = 100` loop
iterations; it returns normally only once two consecutive readings of the
async counter are identical with at least two stable rounds, and it throws
exactly the error "Max async loop reached" when the iteration count
reaches 100.  (In `TimeLine.move` the call is awaited with no surrounding
try/catch, so the thrown error propagates to the caller.) -/
theorem c6_exhaust_async_pipe (env : ℕ → ℤ → ℤ) (counter0 : ℤ)
    (h0 : 0 ≤ counter0) (henv : ∀ n c, 0 ≤ env n c) :
    ((exhaustRun env MAX_ASYNC (initAsync counter0)).count ≤ MAX_ASYNC) ∧
    (∀ s, exhaustAsyncPipe env counter0 = .ok s →
      s.c1 = s.c2 ∧ 2 ≤ s.count2 ∧ s.count < MAX_ASYNC) ∧
    (∀ msg, exhaustAsyncPipe env counter0 = .error msg →
      msg = "Max async loop reached" ∧
      (exhaustRun env MAX_ASYNC (initAsync counter0)).count = MAX_ASYNC) := by
  have hcount := exhaustRun_count_le env MAX_ASYNC (initAsync counter0) (by simp [initAsync])
  have hguard := exhaustRun_guard_false env MAX_ASYNC (initAsync counter0) (by simp [initAsync])
  have hinv := exhaustRun_inv env henv MAX_ASYNC (initAsync counter0)
    ⟨by simpa [initAsync] using h0, by intro h; simp [initAsync] at h; omega⟩
  refine ⟨hcount, ?_, ?_⟩
  · intro s hok
    simp only [exhaustAsyncPipe] at hok
    split_ifs at hok with hc
    simp only [Except.ok.injEq] at hok
    rw [← hok]
    have hlt : (exhaustRun (fun n c => env n c) MAX_ASYNC (initAsync counter0)).count <
        MAX_ASYNC := lt_of_le_of_ne hcount hc
    have heq : (exhaustRun (fun n c => env n c) MAX_ASYNC (initAsync counter0)).c1 =
        (exhaustRun (fun n c => env n c) MAX_ASYNC (initAsync counter0)).c2 := by
      by_contra hne
      exact hguard ⟨hne, hlt⟩
    exact ⟨heq, (hinv.2 heq).1, hlt⟩
  · intro msg herr
    simp only [exhaustAsyncPipe] at herr
    split_ifs at herr with hc
    · simp only [Except.error.injEq] at herr
      exact ⟨herr.symm, hc⟩

/-- C6 witness: a quiet environment (no structural mutations) starting at
counter 0 exits normally after two stable rounds. -/
theorem c6_witness :
    (0 : ℤ) ≤ 0 ∧
    exhaustAsyncPipe (fun _ _ => 0) 0 =
      .ok { c1 := 0, c2 := 0, counter := 0, count := 2, count2 := 2 } ∧
    2 ≤ ({ c1 := 0, c2 := 0, counter := 0, count := 2, count2 := 2 : AsyncState }).count2 := by
  have hrun : exhaustRun (fun _ _ => 0) MAX_ASYNC (initAsync 0) =
      { c1 := 0, c2 := 0, counter := 0, count := 2, count2 := 2 } := by decide
  have heq : exhaustAsyncPipe (fun _ _ => 0) 0 =
      .ok { c1 := 0, c2 := 0, counter := 0, count := 2, count2 := 2 } := by
    simp only [MAX_ASYNC] at hrun
    simp only [exhaustAsyncPipe, MAX_ASYNC, hrun]
    norm_num
  have h := (c6_exhaust_async_pipe (fun _ _ => 0) 0 le_rfl (fun _ _ => le_rfl)).2.1 _ heq
  exact ⟨le_rfl, heq, h.2.1⟩

/-!
## C7: frame quantization of animate timing values
-/

/-- Helper: `adjustDuration` is 16 times an integer. -/
theorem adjustDuration_mul16 (ms speed : ℚ) :
    adjustDuration ms speed = 16 * (jsRound (ms / speed / FRAME_MS) : ℚ) := by
  rw [adjustDuration, FRAME_MS]
  ring

/-- C7: `adjustDuration(ms, speed)` equals `round(ms/speed/16) * 16` and is
an exact multiple of 16; consequently the `duration`, `delay` and `release`
values computed by `animate` are all multiples of 16.  (The hypothesis
`speed ≠ 0` restricts to inputs where the rational model coincides with
JavaScript arithmetic; at `speed = 0` JavaScript would produce Infinity.) -/
theorem c7_quantization (ms speed : ℚ) (_hs : speed ≠ 0) :
    adjustDuration ms speed = (jsRound (ms / speed / FRAME_MS) : ℚ) * FRAME_MS ∧
    (∃ k : ℤ, adjustDuration ms speed = 16 * k) ∧
    (∀ (params : AnimateParamsM) (defaults : ControlDefaults),
      ∃ kdur kdel krel : ℤ,
        (animateTimingValues params defaults).1 = 16 * kdur ∧
        (animateTimingValues params defaults).2.1 = 16 * kdel ∧
        (animateTimingValues params defaults).2.2 = 16 * krel) := by
  refine ⟨rfl, ⟨jsRound (ms / speed / FRAME_MS), adjustDuration_mul16 ms speed⟩, ?_⟩
  intro params defaults
  simp only [animateTimingValues]
  exact ⟨_, _, _, adjustDuration_mul16 _ _, adjustDuration_mul16 _ _, adjustDuration_mul16 _ _⟩

/-- C7 witness: `adjustDuration(100, 1) = round(6.25)*16 = 96`, a multiple
of 16. -/
theorem c7_witness :
    ((1 : ℚ) ≠ 0) ∧ (∃ k : ℤ, adjustDuration 100 1 = 16 * k) ∧ adjustDuration 100 1 = 96 := by
  refine ⟨by norm_num, (c7_quantization 100 1 (by norm_num)).2.1, ?_⟩
  norm_num [adjustDuration, jsRound_eq, FRAME_MS]

/-!
## C8: animation type resolution
-/

/-- C8 counterexample: the claimed priority (attribute before transform,
function targets giving `function`) disagrees with `getAnimationType` of
utils.ts.  A DOM element with the attribute "rotate" set resolves to
`transform` (the code checks the transform set first), a function target
resolves to `invalid` (the code has no function branch), and the property
name "transform" itself resolves to `invalid`, not `css`. -/
theorem c8_counterexample :
    getAnimationType (.elem rotAttrElement) "rotate" = .transform ∧
    claimedAnimationType (.elem rotAttrElement) "rotate" = .attr ∧
    getAnimationType (.elem rotAttrElement) "rotate" ≠
      claimedAnimationType (.elem rotAttrElement) "rotate" ∧
    getAnimationType .fnTarget "left" = .invalid ∧
    claimedAnimationType .fnTarget "left" = .fn ∧
    getAnimationType (.elem plainElement) "transform" = .invalid ∧
    claimedAnimationType (.elem plainElement) "transform" = .css := by
  refine ⟨by decide, by decide, by decide, rfl, rfl, by decide, by decide⟩

/-- C8 amended: the type resolved by `getAnimationType` follows the code's
priority: non-elements (including function targets) give `invalid`; for a
DOM/SVG element, a transform-set name gives `transform`, then a set
attribute (or truthy SVG property) gives `attribute`, then any name other
than "transform" gives `css`, else `invalid`. -/
theorem c8_resolution_priority (t : AnimTargetM) (propName : String) :
    getAnimationType t propName = amendedAnimationType t propName := by
  cases t with
  | fnTarget => rfl
  | elem e =>
    simp only [getAnimationType, amendedAnimationType, Bool.not_eq_true']
    split_ifs <;> simp_all

/-!
## Timeline bookkeeping invariants and the move theorem
-/

theorem mem_insertIdx_or {α : Type} (x a : α) :
    ∀ (l : List α) (i : ℕ), a ∈ l.insertIdx i x → a ∈ l ∨ a = x := by
  intro l
  induction l with
  | nil =>
    intro i h
    cases i with
    | zero => simp [List.insertIdx] at h; exact Or.inr h
    | succ n => simp [List.insertIdx] at h
  | cons b t ih =>
    intro i h
    cases i with
    | zero =>
      rcases List.mem_cons.mp h with h1 | h1
      · exact Or.inr h1
      · exact Or.inl h1
    | succ n =>
      rcases List.mem_cons.mp h with h1 | h1
      · exact Or.inl (by simp [h1])
      · rcases ih n h1 with h2 | h2
        · exact Or.inl (List.mem_cons_of_mem _ h2)
        · exact Or.inr h2

theorem chrome_setEntity (tl : TL) (id : ℕ) (e : Entity ℤ) :
    chrome (setEntity tl id e) = chrome tl := rfl

theorem createMarkerGo_chrome (tl : TL) (time : ℤ) :
    ∀ (fuel : ℕ) (i : ℕ),
      chrome (createMarkerGo tl time i fuel).1 = chrome tl ∧
      (createMarkerGo tl time i fuel).1.entities = tl.entities ∧
      (createMarkerGo tl time i fuel).1.rList = tl.rList ∧
      (∀ m ∈ (createMarkerGo tl time i fuel).1.markers, m ∈ tl.markers ∨ m.time = time) := by
  intro fuel
  induction fuel with
  | zero => intro i; exact ⟨rfl, rfl, rfl, fun m hm => Or.inl hm⟩
  | succ n ih =>
    intro i
    rw [createMarkerGo]
    repeat' split
    all_goals first
      | exact ih _
      | exact ⟨rfl, rfl, rfl, fun mm hm => Or.inl hm⟩
      | (refine ⟨rfl, rfl, rfl, fun mm hm => ?_⟩
         rcases mem_insertIdx_or _ _ _ _ hm with h | h
         · exact Or.inl h
         · exact Or.inr (by rw [h]))

theorem createMarkerTL_chrome (tl : TL) (time : ℤ) :
    chrome (createMarkerTL tl time).1 = chrome tl ∧
    (createMarkerTL tl time).1.entities = tl.entities ∧
    (createMarkerTL tl time).1.rList = tl.rList ∧
    (∀ m ∈ (createMarkerTL tl time).1.markers, m ∈ tl.markers ∨ m.time = time) := by
  rw [createMarkerTL]
  split_ifs with h
  · exact ⟨rfl, rfl, rfl, by simp⟩
  · exact createMarkerGo_chrome tl time _ _

theorem EWF_default : EWF (defaultEntity ℤ) := by
  refine ⟨Or.inl rfl, Or.inl rfl, Or.inl rfl⟩

theorem getEntity_EWF (tl : TL) (id : ℕ) (h : PoolEWF tl) : EWF (getEntity tl id) := by
  rw [getEntity, List.getD]
  rcases hg : tl.entities.get? id with - | e
  · simpa using EWF_default
  · simpa using h e (List.get?_mem hg)

theorem entityInit_EWF (e : Entity ℤ) (st : ℤ) (hst : 0 ≤ st) (he : EWF e) :
    EWF (entityInit e st) := by
  obtain ⟨h1, h2, h3⟩ := he
  rw [entityInit]
  simp only
  split_ifs <;> refine ⟨?_, ?_, ?_⟩ <;> simp_all <;> omega

theorem pool_setEntity (tl : TL) (id : ℕ) (e : Entity ℤ) (hp : PoolEWF tl) (he : EWF e) :
    PoolEWF (setEntity tl id e) := by
  intro e2 h2
  simp only [setEntity] at h2
  rcases List.mem_or_eq_of_mem_set h2 with h | h
  · exact hp e2 h
  · rw [h]; exact he

theorem markers_setEntity (tl : TL) (id : ℕ) (e : Entity ℤ) :
    (setEntity tl id e).markers = tl.markers := rfl

theorem localOK_refl (c : ℤ) (st : TL) : LocalOK c st st :=
  ⟨rfl, fun m hm => Or.inl ⟨m, hm, rfl⟩, fun h => h⟩

theorem localOK_trans {c : ℤ} {s1 s2 s3 : TL} (h12 : LocalOK c s1 s2) (h23 : LocalOK c s2 s3) :
    LocalOK c s1 s3 := by
  refine ⟨h23.1.trans h12.1, fun m hm => ?_, fun hp => h23.2.2 (h12.2.2 hp)⟩
  rcases h23.2.1 m hm with ⟨m0, hm0, ht0⟩ | h
  · rcases h12.2.1 m0 hm0 with ⟨m1, hm1, ht1⟩ | h1
    · exact Or.inl ⟨m1, hm1, ht1.trans ht0⟩
    · exact Or.inr (ht0 ▸ h1)
  · exact Or.inr h

theorem removeEntityTL_local (st : TL) (id : ℕ) :
    LocalOK st.currentTime st (removeEntityTL st id) := by
  unfold removeEntityTL LocalOK
  dsimp only
  split_ifs with h
  · rcases hcm : createMarkerTL { st with asyncCounter := st.asyncCounter + 1 } st.currentTime
      with ⟨tl2, mi⟩
    have hch := createMarkerTL_chrome { st with asyncCounter := st.asyncCounter + 1 }
      st.currentTime
    rw [hcm] at hch
    dsimp only at hch
    have hpool2 : PoolEWF st → PoolEWF tl2 := by
      intro hp e he
      rw [hch.2.1] at he
      exact hp e he
    rcases hg : tl2.markers.get? mi with - | m <;> dsimp only
    · refine ⟨hch.1, fun mm hm => ?_, fun hp => ?_⟩
      · rcases hch.2.2.2 mm hm with h2 | h2
        · exact Or.inl ⟨mm, h2, rfl⟩
        · exact Or.inr h2
      have h3 : PoolEWF (setEntity tl2 id { getEntity tl2 id with endRegistered := true }) :=
        pool_setEntity _ _ _ (hpool2 hp) (getEntity_EWF _ _ (hpool2 hp))
      exact pool_setEntity _ _ _ (fun e he => h3 e he) (getEntity_EWF _ _ (fun e he => h3 e he))
    · refine ⟨hch.1, fun mm hm => ?_, fun hp => ?_⟩
      · rcases List.mem_or_eq_of_mem_set hm with h2 | h2
        · rcases hch.2.2.2 mm h2 with h3 | h3
          · exact Or.inl ⟨mm, h3, rfl⟩
          · exact Or.inr h3
        · have hmem : m ∈ tl2.markers := List.get?_mem hg
          rcases hch.2.2.2 m hmem with h3 | h3
          · exact Or.inl ⟨m, h3, by rw [h2]⟩
          · exact Or.inr (by rw [h2]; exact h3)
      · have hpool3 : PoolEWF { tl2 with markers := tl2.markers.set mi { m with endEntities := m.endEntities ++ [id] } } := fun e he => hpool2 hp e he
        have h4 : PoolEWF (setEntity { tl2 with markers := tl2.markers.set mi { m with endEntities := m.endEntities ++ [id] } } id { getEntity { tl2 with markers := tl2.markers.set mi { m with endEntities := m.endEntities ++ [id] } } id with endRegistered := true }) :=
          pool_setEntity _ _ _ hpool3 (getEntity_EWF _ _ hpool3)
        exact pool_setEntity _ _ _ (fun e he => h4 e he) (getEntity_EWF _ _ (fun e he => h4 e he))
  · refine ⟨rfl, fun m hm => Or.inl ⟨m, hm, rfl⟩, fun hp => ?_⟩
    have h3 : PoolEWF { st with asyncCounter := st.asyncCounter + 1 } := fun e he => hp e he
    exact pool_setEntity _ _ _ (fun e he => h3 e he) (getEntity_EWF _ _ (fun e he => h3 e he))

theorem chrome_currentTime {a b : TL} (h : chrome b = chrome a) :
    b.currentTime = a.currentTime := congrArg (fun p => p.1) h

theorem chrome_startTime {a b : TL} (h : chrome b = chrome a) :
    b.startTime = a.startTime := congrArg (fun p => p.2.1) h

theorem chrome_moveTarget {a b : TL} (h : chrome b = chrome a) :
    b.moveTarget = a.moveTarget := congrArg (fun p => p.2.2.1) h

theorem chrome_lastTargetForward {a b : TL} (h : chrome b = chrome a) :
    b.lastTargetForward = a.lastTargetForward := congrArg (fun p => p.2.2.2) h

theorem localOK_c_congr {c c' : ℤ} {st st2 : TL} (h : c = c') (hL : LocalOK c st st2) :
    LocalOK c' st st2 := h ▸ hL

theorem setEntityFlag_local (c : ℤ) (st : TL) (id : ℕ) (e : Entity ℤ)
    (he : PoolEWF st → EWF e) : LocalOK c st (setEntity st id e) :=
  ⟨rfl, fun m hm => Or.inl ⟨m, hm, rfl⟩, fun hp => pool_setEntity _ _ _ hp (he hp)⟩

theorem localOK_step {st a b : TL} (h1 : LocalOK st.currentTime st a)
    (h2 : LocalOK a.currentTime a b) : LocalOK st.currentTime st b :=
  localOK_trans h1 (localOK_c_congr (chrome_currentTime h1.1) h2)

theorem bump_local (c : ℤ) (st : TL) :
    LocalOK c st { st with asyncCounter := st.asyncCounter + 1 } :=
  ⟨rfl, fun m hm => Or.inl ⟨m, hm, rfl⟩, fun hp => fun e he => hp e he⟩

theorem append_rList_local (c : ℤ) (st : TL) (id : ℕ) :
    LocalOK c st { st with rList := st.rList ++ [id] } :=
  ⟨rfl, fun m hm => Or.inl ⟨m, hm, rfl⟩, fun hp => fun e he => hp e he⟩

theorem checkDoneAndReleaseTL_local (st : TL) (id : ℕ) (time : ℤ) (fwd : Bool) :
    LocalOK st.currentTime st (checkDoneAndReleaseTL st id time fwd) := by
  unfold checkDoneAndReleaseTL
  dsimp only
  generalize hE : (if time = (getEntity st id).doneTime then
      { getEntity st id with done := true } else getEntity st id) = E
  have hEW : PoolEWF st → EWF E := by
    rw [← hE]
    intro hp
    split_ifs <;> exact getEntity_EWF _ _ hp
  have h1 : LocalOK st.currentTime st (setEntity st id E) := setEntityFlag_local _ _ _ _ hEW
  split_ifs <;>
    first
      | exact localOK_step (localOK_step h1 (removeEntityTL_local _ _))
          (setEntityFlag_local _ _ _ _ (fun hp => getEntity_EWF _ _ hp))
      | exact localOK_step h1 (removeEntityTL_local _ _)
      | exact localOK_step h1 (setEntityFlag_local _ _ _ _ (fun hp => getEntity_EWF _ _ hp))
      | exact h1

theorem entityDisplayFrameTL_local (st : TL) (id : ℕ) (time : ℤ) (fwd : Bool) :
    LocalOK st.currentTime st (entityDisplayFrameTL st id time fwd) :=
  checkDoneAndReleaseTL_local st id time fwd

theorem checkStateTL_local (c : ℤ) (st : TL) : LocalOK c st (checkStateTL st) := by
  unfold checkStateTL
  dsimp only
  split_ifs <;> exact ⟨rfl, fun m hm => Or.inl ⟨m, hm, rfl⟩, fun hp => hp⟩

theorem setTlFunctionCompleteTL_local (c : ℤ) (st : TL) :
    LocalOK c st (setTlFunctionCompleteTL st) := by
  unfold setTlFunctionCompleteTL
  exact localOK_trans ⟨rfl, fun m hm => Or.inl ⟨m, hm, rfl⟩, fun hp => hp⟩
    (checkStateTL_local _ _)

theorem addEntityRegister_local (st : TL) (id : ℕ) (hct : 0 ≤ st.currentTime) :
    LocalOK st.currentTime st (addEntityRegister st id) := by
  unfold addEntityRegister
  dsimp only
  split_ifs with h
  · exact localOK_refl _ _
  · rcases hcm : createMarkerTL (setEntity st id (entityInit (getEntity st id) st.currentTime))
        (setEntity st id (entityInit (getEntity st id) st.currentTime)).currentTime
      with ⟨tl2, mi⟩
    have hB : LocalOK st.currentTime st
        (setEntity st id (entityInit (getEntity st id) st.currentTime)) :=
      setEntityFlag_local _ _ _ _
        (fun hp => entityInit_EWF _ _ hct (getEntity_EWF _ _ hp))
    have hch := createMarkerTL_chrome
      (setEntity st id (entityInit (getEntity st id) st.currentTime))
      (setEntity st id (entityInit (getEntity st id) st.currentTime)).currentTime
    rw [hcm] at hch
    dsimp only at hch
    have hBM : LocalOK st.currentTime st tl2 := by
      refine localOK_trans hB ⟨hch.1, fun m hm => ?_, fun hp => ?_⟩
      · rcases hch.2.2.2 m hm with h2 | h2
        · exact Or.inl ⟨m, h2, rfl⟩
        · exact Or.inr h2
      · intro e he
        rw [hch.2.1] at he
        exact hp e he
    rcases hg : tl2.markers.get? mi with - | m <;> dsimp only
    · exact localOK_trans hBM (setEntityFlag_local _ _ _ _ (fun hp => getEntity_EWF _ _ hp))
    · have hset : LocalOK st.currentTime st { tl2 with markers := tl2.markers.set mi { m with startEntities := m.startEntities ++ [id] } } := by
        refine localOK_trans hBM ⟨rfl, fun mm hm => ?_, fun hp => fun e he => hp e he⟩
        rcases List.mem_or_eq_of_mem_set hm with h2 | h2
        · exact Or.inl ⟨mm, h2, rfl⟩
        · exact Or.inl ⟨m, List.get?_mem hg, by rw [h2]⟩
      exact localOK_trans hset (setEntityFlag_local _ _ _ _ (fun hp => getEntity_EWF _ _ hp))

theorem addEntityTL_local (st : TL) (id : ℕ) (hct : 0 ≤ st.currentTime) :
    LocalOK st.currentTime st (addEntityTL st id) := by
  unfold addEntityTL
  dsimp only
  set A := addEntityRegister { st with asyncCounter := st.asyncCounter + 1 } id with hA
  set B : TL := { A with rList := A.rList ++ [id] } with hB
  set C := setEntity B id { getEntity B id with isRunning := true } with hC
  have h1 : LocalOK st.currentTime st A := by
    rw [hA]
    exact localOK_step (bump_local _ _) (addEntityRegister_local _ _ hct)
  have h2 : LocalOK st.currentTime st B := by
    rw [hB]
    exact localOK_step h1 (append_rList_local _ _ _)
  have h3 : LocalOK st.currentTime st C := by
    rw [hC]
    exact localOK_step h2 (setEntityFlag_local _ _ _ _ (fun hp => getEntity_EWF _ _ hp))
  exact localOK_step h3 (entityDisplayFrameTL_local _ _ _ _)

theorem foldl_local {α : Type} (f : TL → α → TL)
    (hf : ∀ s a, 0 ≤ s.currentTime → LocalOK s.currentTime s (f s a)) :
    ∀ (l : List α) (st : TL), 0 ≤ st.currentTime → LocalOK st.currentTime st (l.foldl f st) := by
  intro l
  induction l with
  | nil => exact fun st _ => localOK_refl _ _
  | cons a t ih =>
    intro st hct
    have h1 := hf st a hct
    have hc : (f st a).currentTime = st.currentTime := chrome_currentTime h1.1
    have h2 := ih (f st a) (by rw [hc]; exact hct)
    exact localOK_step h1 h2

theorem loadEntitiesTL_local (st : TL) (time : ℤ) (fwd : Bool) (hct : 0 ≤ st.currentTime) :
    LocalOK st.currentTime st (loadEntitiesTL st time fwd) := by
  unfold loadEntitiesTL
  rcases hgm : getMarkerTL st time with - | mi <;> dsimp only
  · exact localOK_refl _ _
  · rcases hm : st.markers.get? mi with - | m <;> try dsimp only
    · exact localOK_refl _ _
    · try dsimp only
      have hadd : ∀ (s : TL) (id : ℕ), 0 ≤ s.currentTime → LocalOK s.currentTime s
          (if (getEntity s id).isRunning then s else addEntityTL s id) := by
        intro s id hc
        split_ifs
        · exact localOK_refl _ _
        · exact addEntityTL_local _ _ hc
      have hrm : ∀ (s : TL) (id : ℕ), 0 ≤ s.currentTime → LocalOK s.currentTime s
          (if (getEntity s id).isRunning then removeEntityTL s id else s) := by
        intro s id hc
        split_ifs
        · exact removeEntityTL_local _ _
        · exact localOK_refl _ _
      have h1 := foldl_local _ hadd (if fwd then m.startEntities else m.endEntities).reverse st hct
      have h2 := foldl_local _ hrm (if fwd then m.endEntities else m.startEntities).reverse _
        (by rw [chrome_currentTime h1.1]; exact hct)
      exact localOK_step h1 h2

theorem append_entity_local (c : ℤ) (st : TL) (e : Entity ℤ) (he : EWF e) :
    LocalOK c st { st with entities := st.entities ++ [e] } := by
  refine ⟨rfl, fun m hm => Or.inl ⟨m, hm, rfl⟩, fun hp e2 he2 => ?_⟩
  rcases List.mem_append.1 he2 with h | h
  · exact hp e2 h
  · rw [List.mem_singleton.1 h]
    exact he

theorem spawnEntityTL_local (st : TL) (spec : EntitySpec) (hct : 0 ≤ st.currentTime) :
    LocalOK st.currentTime st (spawnEntityTL st spec) := by
  unfold spawnEntityTL
  dsimp only
  have happ := append_entity_local st.currentTime st
    { defaultEntity ℤ with delay := spec.delay, duration := spec.duration, release := spec.release }
    ⟨Or.inl rfl, Or.inl rfl, Or.inl rfl⟩
  have hAB := localOK_step happ (addEntityTL_local _ st.entities.length hct)
  split_ifs <;>
    first
      | exact localOK_step hAB (setEntityFlag_local _ _ _ _ (fun hp => getEntity_EWF _ _ hp))
      | exact hAB

theorem localOK_effects {A R : TL} (h : LocalOK A.currentTime A R) :
    R.currentTime = A.currentTime ∧ R.startTime = A.startTime ∧ R.moveTarget = A.moveTarget ∧
    R.lastTargetForward = A.lastTargetForward ∧
    (∀ m ∈ R.markers, (∃ m0 ∈ A.markers, m0.time = m.time) ∨ m.time = A.currentTime) ∧
    (PoolEWF A → PoolEWF R) :=
  ⟨chrome_currentTime h.1, chrome_startTime h.1, chrome_moveTarget h.1,
    chrome_lastTargetForward h.1, h.2.1, h.2.2⟩

theorem tlDisplayFrame_effects (st : TL) (time targetTime : ℤ) (fwd : Bool) (hct : 0 ≤ time) :
    (tlDisplayFrame st time targetTime fwd).currentTime = time ∧
    (tlDisplayFrame st time targetTime fwd).startTime = st.startTime ∧
    (tlDisplayFrame st time targetTime fwd).moveTarget = st.moveTarget ∧
    (tlDisplayFrame st time targetTime fwd).lastTargetForward = fwd ∧
    (∀ m ∈ (tlDisplayFrame st time targetTime fwd).markers,
      (∃ m0 ∈ st.markers, m0.time = m.time) ∨ m.time = time) ∧
    (PoolEWF st → PoolEWF (tlDisplayFrame st time targetTime fwd)) := by
  unfold tlDisplayFrame
  dsimp only
  split_ifs with h
  · set A : TL := { st with currentTime := time, lastTargetTime := targetTime, lastTargetForward := fwd } with hA
    have h1 := foldl_local _ (fun s a _ => entityDisplayFrameTL_local s a time fwd) st.rList A
      (by rw [hA]; exact hct)
    have h2 := localOK_step h1 (loadEntitiesTL_local _ time fwd
      (by rw [chrome_currentTime h1.1, hA]; exact hct))
    have h3 := localOK_step h2 (checkStateTL_local _ _)
    have he := localOK_effects h3
    exact ⟨he.1, he.2.1, he.2.2.1, he.2.2.2.1, fun m hm => he.2.2.2.2.1 m hm,
      fun hp => he.2.2.2.2.2 (fun e he2 => hp e he2)⟩
  · set B : TL := { st with currentTime := time, lastTargetTime := targetTime, lastTargetForward := fwd, tlFunctionCalled := true } with hB
    have h1 := foldl_local _ (fun s a hc => spawnEntityTL_local s a hc) st.specs B
      (by rw [hB]; exact hct)
    have h2 := localOK_step h1 (setTlFunctionCompleteTL_local _ _)
    have h3 := localOK_step h2 (checkStateTL_local _ _)
    have he := localOK_effects h3
    exact ⟨he.1, he.2.1, he.2.2.1, he.2.2.2.1, fun m hm => he.2.2.2.2.1 m hm,
      fun hp => he.2.2.2.2.2 (fun e he2 => hp e he2)⟩

theorem getMarkerGo_congr (a b : TL) (time : ℤ) (fwd : Bool) (h : a.markers = b.markers) :
    ∀ (fuel i : ℕ), getMarkerGo a time fwd i fuel = getMarkerGo b time fwd i fuel := by
  intro fuel
  induction fuel with
  | zero => intro i; rfl
  | succ f ih =>
    intro i
    simp only [getMarkerGo, h]
    rcases hm : b.markers.get? i with - | m <;> try dsimp only
    all_goals try rfl
    all_goals split_ifs <;> first | rfl | apply ih

theorem getMarkerTL_congr (a b : TL) (time : ℤ) (hm : a.markers = b.markers)
    (hc : a.currentMarker = b.currentMarker) : getMarkerTL a time = getMarkerTL b time := by
  unfold getMarkerTL
  rw [hm, hc]
  rcases hg : b.markers.get? b.currentMarker with - | m <;> try dsimp only
  all_goals try rfl
  all_goals exact getMarkerGo_congr a b time _ hm _ _

theorem gNMPchildren_congr (a b : TL) (time : ℤ) (fwd : Bool)
    (he : a.entities = b.entities) (hr : a.rList = b.rList) :
    gNMPchildren a time fwd = gNMPchildren b time fwd := by
  simp only [gNMPchildren, getEntity, he, hr]

theorem gNMPscan_congr (a b : TL) (time : ℤ) (fwd : Bool) (h : a.markers = b.markers) :
    ∀ (fuel : ℕ) (n : ℤ) (found : Bool) (cursor : ℕ) (oi : Option ℕ),
      gNMPscan a time fwd n found cursor oi fuel = gNMPscan b time fwd n found cursor oi fuel := by
  intro fuel
  induction fuel with
  | zero => intro n found cursor oi; rfl
  | succ f ih =>
    intro n found cursor oi
    rcases oi with - | j
    · rfl
    · simp only [gNMPscan, h]
      rcases hm : b.markers.get? j with - | m <;> try dsimp only
      all_goals try rfl
      all_goals split_ifs <;> first | rfl | apply ih

theorem tlGNMP_congr (a b : TL) (time : ℤ) (fwd : Bool) (hm : a.markers = b.markers)
    (hcm : a.currentMarker = b.currentMarker) (hct : a.currentTime = b.currentTime)
    (he : a.entities = b.entities) (hr : a.rList = b.rList) :
    tlGNMP a time fwd = tlGNMP b time fwd := by
  unfold tlGNMP
  dsimp only
  rw [hct, hcm, hm, gNMPchildren_congr a b time fwd he hr, gNMPscan_congr a b time fwd hm]

theorem gNMPscan_notFound (tl : TL) (time : ℤ) (fwd : Bool) :
    ∀ (fuel : ℕ) (n : ℤ) (found : Bool) (cursor : ℕ) (oi : Option ℕ),
      (gNMPscan tl time fwd n found cursor oi fuel).2.1 = false →
      gNMPscan tl time fwd n found cursor oi fuel = (n, false, cursor) ∧ found = false := by
  intro fuel
  induction fuel with
  | zero =>
    intro n found cursor oi h
    simp only [gNMPscan] at h ⊢
    exact ⟨by rw [h], h⟩
  | succ f ih =>
    intro n found cursor oi h
    rcases oi with - | j
    · simp only [gNMPscan] at h ⊢
      exact ⟨by rw [h], h⟩
    · simp only [gNMPscan] at h ⊢
      rcases hm : tl.markers.get? j with - | m <;> rw [hm] at h <;> try dsimp only at h ⊢
      · exact ⟨by rw [h], h⟩
      · split_ifs at h ⊢ <;> try dsimp only at h
        all_goals
          first
            | exact ⟨(ih _ _ _ _ h).1, (ih _ _ _ _ h).2⟩
            | exact absurd (ih _ _ _ _ h).2 (by simp)
            | simp_all

theorem gNMPscan_found_gt (tl : TL) (time : ℤ) :
    ∀ (fuel : ℕ) (n : ℤ) (found : Bool) (cursor : ℕ) (oi : Option ℕ),
      (found = true → time < n) →
      (gNMPscan tl time true n found cursor oi fuel).2.1 = true →
      time < (gNMPscan tl time true n found cursor oi fuel).1 := by
  intro fuel
  induction fuel with
  | zero =>
    intro n found cursor oi hn h
    simp only [gNMPscan] at h ⊢
    exact hn h
  | succ f ih =>
    intro n found cursor oi hn h
    rcases oi with - | j
    · simp only [gNMPscan] at h ⊢
      exact hn h
    · simp only [gNMPscan] at h ⊢
      rcases hm : tl.markers.get? j with - | m <;> rw [hm] at h <;> try dsimp only at h ⊢
      · exact hn h
      · split_ifs at h ⊢ with h1 h2 h3 <;> try dsimp only at h
        all_goals
          first
            | exact hn h
            | exact ih _ _ _ _ hn h
            | (refine ih _ _ _ _ ?_ h; intro; constructor <;> omega)
            | (refine ih _ _ _ _ ?_ h; intro; omega)
            | simp_all

theorem gNMPscan_found_bwd (tl : TL) (time : ℤ) (hmk : ∀ m ∈ tl.markers, 0 ≤ m.time) :
    ∀ (fuel : ℕ) (n : ℤ) (found : Bool) (cursor : ℕ) (oi : Option ℕ),
      (found = true → n < time ∧ 0 ≤ n) →
      (gNMPscan tl time false n found cursor oi fuel).2.1 = true →
      (gNMPscan tl time false n found cursor oi fuel).1 < time ∧
        0 ≤ (gNMPscan tl time false n found cursor oi fuel).1 := by
  intro fuel
  induction fuel with
  | zero =>
    intro n found cursor oi hn h
    simp only [gNMPscan] at h ⊢
    exact hn h
  | succ f ih =>
    intro n found cursor oi hn h
    rcases oi with - | j
    · simp only [gNMPscan] at h ⊢
      exact hn h
    · simp only [gNMPscan] at h ⊢
      rcases hm : tl.markers.get? j with - | m <;> rw [hm] at h <;> try dsimp only at h ⊢
      · exact hn h
      · have hm0 : 0 ≤ m.time := hmk m (List.get?_mem hm)
        split_ifs at h ⊢ with h1 h2 h3 <;> try dsimp only at h
        all_goals
          first
            | exact hn h
            | exact ih _ _ _ _ hn h
            | (refine ih _ _ _ _ ?_ h; intro; constructor <;> omega)
            | (refine ih _ _ _ _ ?_ h; intro; omega)
            | simp_all

theorem gNMPchildren_fwd (tl : TL) (time : ℤ) :
    (gNMPchildren tl time true).2 = true → time < (gNMPchildren tl time true).1 := by
  unfold gNMPchildren
  have : ∀ (l : List ℕ) (acc : ℤ × Bool), (acc.2 = true → time < acc.1) →
      ((l.foldl (fun (acc : ℤ × Bool) id =>
        let n2 := entityGNMP (getEntity tl id) time true
        if n2 > -1 then
          if (true : Bool) then
            if time < n2 ∧ n2 < acc.1 then (n2, true) else acc
          else
            if time > n2 ∧ n2 > acc.1 then (n2, true) else acc
        else acc) acc).2 = true →
        time < (l.foldl (fun (acc : ℤ × Bool) id =>
        let n2 := entityGNMP (getEntity tl id) time true
        if n2 > -1 then
          if (true : Bool) then
            if time < n2 ∧ n2 < acc.1 then (n2, true) else acc
          else
            if time > n2 ∧ n2 > acc.1 then (n2, true) else acc
        else acc) acc).1) := by
    intro l
    induction l with
    | nil => exact fun acc hacc => hacc
    | cons a t iht =>
      intro acc hacc
      apply iht
      dsimp only
      split_ifs with h1 h2 h3 <;>
        first
          | exact hacc
          | (intro hx; dsimp only; omega)
          | simp_all
  exact this tl.rList (if (true : Bool) then ((maxTimeInt : ℤ), false) else (-1, false))
    (by intro hf; simp at hf)

theorem gNMPchildren_bwd (tl : TL) (time : ℤ) :
    (gNMPchildren tl time false).2 = true →
    (gNMPchildren tl time false).1 < time ∧ 0 ≤ (gNMPchildren tl time false).1 := by
  unfold gNMPchildren
  have : ∀ (l : List ℕ) (acc : ℤ × Bool), (acc.2 = true → acc.1 < time ∧ 0 ≤ acc.1) →
      ((l.foldl (fun (acc : ℤ × Bool) id =>
        let n2 := entityGNMP (getEntity tl id) time false
        if n2 > -1 then
          if (false : Bool) then
            if time < n2 ∧ n2 < acc.1 then (n2, true) else acc
          else
            if time > n2 ∧ n2 > acc.1 then (n2, true) else acc
        else acc) acc).2 = true →
        (l.foldl (fun (acc : ℤ × Bool) id =>
        let n2 := entityGNMP (getEntity tl id) time false
        if n2 > -1 then
          if (false : Bool) then
            if time < n2 ∧ n2 < acc.1 then (n2, true) else acc
          else
            if time > n2 ∧ n2 > acc.1 then (n2, true) else acc
        else acc) acc).1 < time ∧ 0 ≤ (l.foldl (fun (acc : ℤ × Bool) id =>
        let n2 := entityGNMP (getEntity tl id) time false
        if n2 > -1 then
          if (false : Bool) then
            if time < n2 ∧ n2 < acc.1 then (n2, true) else acc
          else
            if time > n2 ∧ n2 > acc.1 then (n2, true) else acc
        else acc) acc).1) := by
    intro l
    induction l with
    | nil => exact fun acc hacc => hacc
    | cons a t iht =>
      intro acc hacc
      apply iht
      dsimp only
      split_ifs with h1 h2 h3 <;>
        first
          | exact hacc
          | (intro hx; dsimp only; omega)
          | simp_all
  exact this tl.rList (if (false : Bool) then ((maxTimeInt : ℤ), false) else (-1, false))
    (by intro hf; simp at hf)

theorem tlGNMP_stuck (tl : TL) (fwd : Bool) (hct : 0 ≤ tl.currentTime)
    (hmk : ∀ m ∈ tl.markers, 0 ≤ m.time)
    (h : (tlGNMP tl tl.currentTime fwd).1 < 0 ∨
      (tlGNMP tl tl.currentTime fwd).1 = tl.currentTime) :
    tlGNMP tl tl.currentTime fwd = (-1, tl.currentMarker) := by
  have hfast : ¬(|tl.currentTime - tl.currentTime| = frameMsInt) := by
    simp [frameMsInt]
  unfold tlGNMP at h ⊢
  rw [if_neg hfast] at h ⊢
  dsimp only at h ⊢
  rcases hf : (gNMPscan tl tl.currentTime fwd (gNMPchildren tl tl.currentTime fwd).1
      (gNMPchildren tl tl.currentTime fwd).2 tl.currentMarker (some tl.currentMarker)
      (2 * tl.markers.length + 2)).2.1 with - | -
  · have hnf := gNMPscan_notFound tl tl.currentTime fwd _ _ _ _ _ hf
    rw [hnf.1]
    simp
  · exfalso
    rw [hf] at h
    simp at h
    cases fwd
    · have hb := gNMPscan_found_bwd tl tl.currentTime hmk _ _ _ _ _
        (gNMPchildren_bwd tl tl.currentTime) hf
      omega
    · have hb := gNMPscan_found_gt tl tl.currentTime _ _ _ _ _
        (gNMPchildren_fwd tl tl.currentTime) hf
      omega

theorem tlDisplayFrame_WF (st : TL) (time targetTime : ℤ) (fwd : Bool) (hct : 0 ≤ time)
    (hwf : WF st) : WF (tlDisplayFrame st time targetTime fwd) := by
  obtain ⟨h1, h2, h3, h4⟩ := hwf
  obtain ⟨e1, e2, e3, e4, e5, e6⟩ := tlDisplayFrame_effects st time targetTime fwd hct
  refine ⟨Or.inr (by rw [e1]; exact hct), by rw [e2]; exact h2, fun m hm => ?_, e6 h4⟩
  rcases e5 m hm with ⟨m0, hm0, hte⟩ | hte
  · rw [← hte]
    exact h3 m0 hm0
  · rw [hte]
    exact hct

theorem getMarkerTL_mtet (tl : TL) (a b : ℤ) (time : ℤ) :
    getMarkerTL { tl with moveTarget := a, endTime := b } time = getMarkerTL tl time :=
  getMarkerTL_congr _ tl time rfl rfl

theorem tlGNMP_mtet (tl : TL) (a b : ℤ) (time : ℤ) (fwd : Bool) :
    tlGNMP { tl with moveTarget := a, endTime := b } time fwd = tlGNMP tl time fwd :=
  tlGNMP_congr _ tl time fwd rfl rfl rfl rfl rfl

theorem moveLoop_rest (t : ℤ) (fwd : Bool) (f : ℕ)
    (ih : ∀ (tl : TL), MInv t fwd tl → ∀ tl', moveLoop t fwd f tl = some tl' →
      WF tl' ∧ ((tl'.currentTime = t ∧ tl'.moveTarget = t) ∨ StuckOut t fwd tl'))
    (tlX : TL) (hwf : WF tlX) (hmt : tlX.moveTarget = t)
    (hct : 0 ≤ tlX.currentTime) (hne : tlX.currentTime ≠ t)
    (hbf : fwd = true → tlX.currentTime < t) (hbb : fwd = false → t < tlX.currentTime)
    (hltf : tlX.lastTargetForward = fwd ∨ getMarkerTL tlX tlX.currentTime = none)
    (tl' : TL)
    (h : (let r := tlGNMP tlX tlX.currentTime fwd
          let tlC : TL := { tlX with currentMarker := r.2 }
          if r.1 < 0 ∨ r.1 = tlC.currentTime then
            some { tlC with moveTarget := tlC.currentTime, endTime := tlC.currentTime }
          else
            let nextTarget := if fwd then (if r.1 > t then t else r.1)
              else (if r.1 < t then t else r.1)
            moveLoop t fwd f (tlDisplayFrame tlC nextTarget t fwd)) = some tl') :
    WF tl' ∧ ((tl'.currentTime = t ∧ tl'.moveTarget = t) ∨ StuckOut t fwd tl') := by
  dsimp only at h
  by_cases hg : (tlGNMP tlX tlX.currentTime fwd).1 < 0 ∨
      (tlGNMP tlX tlX.currentTime fwd).1 = tlX.currentTime
  · rw [if_pos hg] at h
    have hstk := tlGNMP_stuck tlX fwd hct hwf.2.2.1 hg
    rw [hstk] at h
    dsimp only at h
    obtain rfl := (Option.some.inj h).symm
    refine ⟨⟨hwf.1, hwf.2.1, hwf.2.2.1, hwf.2.2.2⟩,
      Or.inr ⟨rfl, rfl, hct, hne, ?_, ?_, ?_⟩⟩
    · cases fwd
      · have := hbb rfl
        simp only [decide_eq_false_iff_not]
        omega
      · have := hbf rfl
        simp only [decide_eq_true_eq]
        omega
    · rcases hltf with hl | hl
      · exact Or.inl hl
      · exact Or.inr ((getMarkerTL_mtet tlX _ _ _).trans hl)
    · exact (tlGNMP_mtet tlX _ _ _ fwd).trans hstk
  · rw [if_neg hg] at h
    push_neg at hg
    try dsimp only at h
    have hwfC : WF ({ tlX with currentMarker := (tlGNMP tlX tlX.currentTime fwd).2 } : TL) :=
      ⟨hwf.1, hwf.2.1, hwf.2.2.1, hwf.2.2.2⟩
    have hNT0 : 0 ≤ (if fwd = true then
        (if (tlGNMP tlX tlX.currentTime fwd).1 > t then t else (tlGNMP tlX tlX.currentTime fwd).1)
        else (if (tlGNMP tlX tlX.currentTime fwd).1 < t then t
          else (tlGNMP tlX tlX.currentTime fwd).1)) := by
      cases fwd
      · have := hbb rfl
        simp only [Bool.false_eq_true, if_false]
        split_ifs <;> omega
      · have := hbf rfl
        simp only [if_true]
        split_ifs <;> omega
    refine ih _ ⟨tlDisplayFrame_WF _ _ _ _ hNT0 hwfC, ?_, ?_, ?_⟩ tl' h
    · rw [(tlDisplayFrame_effects _ _ t fwd hNT0).2.2.1]
      exact hmt
    · intro hf
      rw [(tlDisplayFrame_effects _ _ t fwd hNT0).1]
      have := hbf hf
      rw [hf]
      simp only [if_true]
      split_ifs <;> omega
    · intro hf
      rw [(tlDisplayFrame_effects _ _ t fwd hNT0).1]
      have := hbb hf
      rw [hf]
      simp only [Bool.false_eq_true, if_false]
      split_ifs <;> omega

theorem moveLoop_spec (t : ℤ) (fwd : Bool) :
    ∀ (fuel : ℕ) (tl : TL), MInv t fwd tl →
      ∀ tl', moveLoop t fwd fuel tl = some tl' →
        WF tl' ∧ ((tl'.currentTime = t ∧ tl'.moveTarget = t) ∨ StuckOut t fwd tl') := by
  intro fuel
  induction fuel with
  | zero =>
    intro tl _ tl' h
    simp only [moveLoop] at h
    exact Option.noConfusion h
  | succ f ih =>
    intro tl hinv tl' h
    obtain ⟨hwf, hmt, hbf0, hbb0⟩ := hinv
    simp only [moveLoop] at h
    by_cases h1 : tl.currentTime = tl.moveTarget
    · rw [if_pos h1] at h
      obtain rfl := (Option.some.inj h).symm
      exact ⟨hwf, Or.inl ⟨by rw [h1, hmt], hmt⟩⟩
    · rw [if_neg h1] at h
      have hnet : tl.currentTime ≠ t := by rw [← hmt]; exact h1
      by_cases h2 : tl.currentTime < 0
      · rw [if_pos h2] at h
        have hm1 : tl.currentTime = -1 := by rcases hwf.1 with hx | hx <;> omega
        have hst : tl.startTime = 0 := hwf.2.1
        rw [if_neg (by omega : ¬tl.startTime < 0)] at h
        have hst0 : (0 : ℤ) ≤ tl.startTime := by omega
        refine ih _ ⟨tlDisplayFrame_WF _ _ _ _ hst0 hwf, ?_, ?_, ?_⟩ tl' h
        · rw [(tlDisplayFrame_effects _ _ t fwd hst0).2.2.1]
          exact hmt
        · intro hf
          rw [(tlDisplayFrame_effects _ _ t fwd hst0).1]
          have := hbf0 hf
          omega
        · intro hf
          rw [(tlDisplayFrame_effects _ _ t fwd hst0).1]
          have := hbb0 hf
          omega
      · rw [if_neg h2] at h
        have hct0 : (0 : ℤ) ≤ tl.currentTime := by omega
        have hbf : fwd = true → tl.currentTime < t := by
          intro hf
          have := hbf0 hf
          omega
        have hbb : fwd = false → t < tl.currentTime := by
          intro hf
          have := hbb0 hf
          omega
        by_cases hrep : fwd ≠ tl.lastTargetForward
        · rw [if_pos hrep] at h
          rcases hgm : getMarkerTL tl tl.currentTime with - | mi <;> rw [hgm] at h <;>
            dsimp only at h
          · exact moveLoop_rest t fwd f ih tl hwf hmt hct0 hnet hbf hbb (Or.inr hgm) tl' h
          · have heff := tlDisplayFrame_effects tl tl.currentTime t fwd hct0
            refine moveLoop_rest t fwd f ih (tlDisplayFrame tl tl.currentTime t fwd)
              (tlDisplayFrame_WF _ _ _ _ hct0 hwf) ?_ ?_ ?_ ?_ ?_ (Or.inl heff.2.2.2.1) tl' h
            · rw [heff.2.2.1]
              exact hmt
            · rw [heff.1]
              exact hct0
            · rw [heff.1]
              exact hnet
            · intro hf
              rw [heff.1]
              exact hbf hf
            · intro hf
              rw [heff.1]
              exact hbb hf
        · rw [if_neg hrep] at h
          push_neg at hrep
          exact moveLoop_rest t fwd f ih tl hwf hmt hct0 hnet hbf hbb
            (Or.inl hrep.symm) tl' h

theorem getMarkerTL_mt (tl : TL) (a : ℤ) (time : ℤ) :
    getMarkerTL { tl with moveTarget := a } time = getMarkerTL tl time :=
  getMarkerTL_congr _ tl time rfl rfl

theorem tlGNMP_mt (tl : TL) (a : ℤ) (time : ℤ) (fwd : Bool) :
    tlGNMP { tl with moveTarget := a } time fwd = tlGNMP tl time fwd :=
  tlGNMP_congr _ tl time fwd rfl rfl rfl rfl rfl

theorem tl_restore (tl : TL) (h1 : tl.moveTarget = tl.currentTime)
    (h2 : tl.endTime = tl.currentTime) :
    ({ tl with moveTarget := tl.currentTime, endTime := tl.currentTime } : TL) = tl := by
  obtain ⟨sp, st, ct, et, mt, mk, cm, en, rl, ltt, ltf, tfc, tfk, rel, dn, ac⟩ := tl
  dsimp only at h1 h2 ⊢
  rw [h1, h2]

theorem move_second (tl' : TL) (t : ℤ) (fwd : Bool)
    (h1 : tl'.moveTarget = tl'.currentTime) (h2 : tl'.endTime = tl'.currentTime)
    (h3 : 0 ≤ tl'.currentTime) (h4 : tl'.currentTime ≠ t)
    (hdir : decide (t > tl'.currentTime) = fwd)
    (hrep : tl'.lastTargetForward = fwd ∨ getMarkerTL tl' tl'.currentTime = none)
    (hstuck : tlGNMP tl' tl'.currentTime fwd = (-1, tl'.currentMarker)) :
    move 1 tl' t = some (tl', tl'.currentTime) := by
  have hgn : tlGNMP ({ tl' with moveTarget := t } : TL) tl'.currentTime fwd =
      (-1, tl'.currentMarker) := by
    rw [tlGNMP_mt]
    exact hstuck
  have hloop : moveLoop t fwd 1 ({ tl' with moveTarget := t } : TL) = some tl' := by
    rw [show (1 : ℕ) = 0 + 1 from rfl]
    simp only [moveLoop]
    try dsimp only
    rw [if_neg h4]
    rw [if_neg (by omega : ¬tl'.currentTime < 0)]
    rcases hrep with hl | hl
    · rw [if_neg (by rw [hl]; simp : ¬(fwd ≠ tl'.lastTargetForward))]
      rw [hgn]
      try dsimp only
      rw [if_pos (Or.inl (by norm_num))]
      rw [tl_restore tl' h1 h2]
    · by_cases hf : fwd ≠ tl'.lastTargetForward
      · rw [if_pos hf]
        have hgm : getMarkerTL ({ tl' with moveTarget := t } : TL) tl'.currentTime = none := by
          rw [getMarkerTL_mt]
          exact hl
        rw [hgm]
        try dsimp only
        rw [hgn]
        try dsimp only
        rw [if_pos (Or.inl (by norm_num))]
        rw [tl_restore tl' h1 h2]
      · rw [if_neg hf]
        rw [hgn]
        try dsimp only
        rw [if_pos (Or.inl (by norm_num))]
        rw [tl_restore tl' h1 h2]
  unfold move
  dsimp only
  rw [if_neg (fun hc => h4 hc.symm), hdir, hloop]
  rfl

theorem move_immediate_eq (tl : TL) (t : ℤ) (fuel : ℕ) (ht : t = tl.currentTime) :
    move fuel tl t = some ({ tl with moveTarget := t }, tl.currentTime) := by
  unfold move
  dsimp only
  rw [if_pos ht]

/-- C1: `TimeLine.move` is idempotent.  On a well-formed timeline,
`move(t)` with `t = currentTime` returns immediately with `currentTime`
unchanged (only `moveTarget` is set), and whenever `move(t)` succeeds,
the returned position is the new `currentTime` and a second `move(t)`
returns the very same timeline state (hence the same `currentTime` and
no new markers) immediately, in a single loop iteration. -/
theorem c1_move_idempotent (tl : TL) (t : ℤ) (fuel : ℕ) (hwf : WF tl) :
    (t = tl.currentTime → move fuel tl t = some ({ tl with moveTarget := t }, tl.currentTime)) ∧
    (∀ tl' r, move fuel tl t = some (tl', r) →
      r = tl'.currentTime ∧ move 1 tl' t = some (tl', tl'.currentTime)) := by
  constructor
  · exact move_immediate_eq tl t fuel
  · intro tl' r h
    unfold move at h
    dsimp only at h
    by_cases ht : t = tl.currentTime
    · rw [if_pos ht] at h
      have hpair := Option.some.inj h
      have hfst := congrArg Prod.fst hpair
      have hsnd := congrArg Prod.snd hpair
      dsimp only at hfst hsnd
      rw [← hfst]
      refine ⟨hsnd.symm, ?_⟩
      unfold move
      dsimp only
      rw [if_pos ht]
    · rw [if_neg ht] at h
      rcases hmap : moveLoop t (decide (t > tl.currentTime)) fuel
          ({ tl with moveTarget := t } : TL) with - | tl2
      · rw [hmap] at h
        exact Option.noConfusion h
      · rw [hmap] at h
        dsimp only [Option.map] at h
        have hpair := Option.some.inj h
        have hfst := congrArg Prod.fst hpair
        have hsnd := congrArg Prod.snd hpair
        dsimp only at hfst hsnd
        have hinv : MInv t (decide (t > tl.currentTime)) ({ tl with moveTarget := t } : TL) := by
          refine ⟨⟨hwf.1, hwf.2.1, hwf.2.2.1, hwf.2.2.2⟩, rfl, ?_, ?_⟩
          · intro hf
            rw [decide_eq_true_eq] at hf
            show tl.currentTime ≤ t
            omega
          · intro hf
            rw [decide_eq_false_iff_not] at hf
            show t ≤ tl.currentTime
            omega
        obtain ⟨hwf2, hpost⟩ := moveLoop_spec t _ fuel _ hinv tl2 hmap
        subst hfst
        refine ⟨hsnd.symm, ?_⟩
        rcases hpost with ⟨hct, hmt⟩ | hstk
        · unfold move
          dsimp only
          rw [if_pos hct.symm]
          rw [← hmt]
        · obtain ⟨s1, s2, s3, s4, s5, s6, s7⟩ := hstk
          exact move_second tl2 t _ s1 s2 s3 s4 s5 s6 s7

theorem c1_move_idempotent_witness :
    WF c1tl0 ∧ move 8 c1tl0 32 = some (c1tl1, 16) ∧
    ((16 : ℤ) = c1tl1.currentTime ∧ move 1 c1tl1 32 = some (c1tl1, c1tl1.currentTime)) ∧
    move 8 c1tl0 (-1) = some ({ c1tl0 with moveTarget := -1 }, c1tl0.currentTime) := by
  have hwf : WF c1tl0 := by
    unfold WF EWF
    decide
  have heq : move 8 c1tl0 32 = some (c1tl1, 16) := by decide
  have h2 := (c1_move_idempotent c1tl0 32 8 hwf).2 c1tl1 16 heq
  have h1 := (c1_move_idempotent c1tl0 (-1) 8 hwf).1 (by decide)
  exact ⟨hwf, heq, h2, h1⟩

/-- C9: when `animate` is called with a target that is not a function and
whose selector resolves to no element, it returns without attaching any
entity: the timeline state is returned unchanged (in particular its marker
list and running list), the success flag is false, and no error is raised
(the model is a total function). -/
theorem c9_animate_unresolved_noop (tl : TL) (spec : EntitySpec) :
    animateModel tl false none spec = (tl, false) ∧
    (animateModel tl false none spec).1.markers = tl.markers ∧
    (animateModel tl false none spec).1.rList = tl.rList :=
  ⟨rfl, rfl, rfl⟩

/-- C10: `Player.position` is never negative: it returns 0 whenever the
root timeline current time is negative (as it is initially: a freshly
constructed timeline has `currentTime = -1`), and returns `currentTime`
unchanged otherwise. -/
theorem c10_player_position_clamped (tl : TL) :
    0 ≤ playerPosition tl ∧
    (tl.currentTime < 0 → playerPosition tl = 0) ∧
    (0 ≤ tl.currentTime → playerPosition tl = tl.currentTime) ∧
    (∀ specs, (initTL specs).currentTime = -1) := by
  refine ⟨?_, ?_, ?_, fun specs => rfl⟩ <;> unfold playerPosition <;>
    split_ifs with h <;> first | rfl | omega

theorem c10_player_position_clamped_witness :
    (initTL []).currentTime < 0 ∧ playerPosition (initTL []) = 0 :=
  ⟨by decide, (c10_player_position_clamped (initTL [])).2.1 (by decide)⟩

end Minimotion
